import Mathlib

/-!
Verification of the update orchestrator in `tegra-bootloader-update.c`.

The definitions below are a shallow embedding of the C source.  Machine
integers are modelled as `Nat` (sizes, offsets) or `Int` (the signed loop
index and `which` state of the T210 BCT writer).  Byte buffers are
`List Nat`.  I/O is modelled by explicit event traces (`Ev`) and by
parameters standing for the results of reads (the current contents of a
partition or device) and for the success of fallible external calls
(`validOk`, `readOk`, ...).  Offsets in write events are the offsets
passed to `lseek`, i.e. relative to the start of the file descriptor's
device.
-/

/-- A GPT partition descriptor, as used through `gpt_entry_t`:
first and last LBA in 512-byte sectors. -/
structure GptEntry where
  first_lba : Nat
  last_lba : Nat
deriving DecidableEq

/-- `struct update_entry_s`: one entry of the update plan.  `part = some p`
means an in-boot-device GPT target; `part = none` with a nonempty
`devname` means an external device-node target. -/
structure UpdateEntry where
  partname : String
  part : Option GptEntry
  devname : String
  bup_offset : Nat
  length : Nat
deriving DecidableEq

/-- Device I/O events, in program order: a seek, a write of a byte string
at the offset the preceding seek established, or an `fsync`. -/
inductive Ev where
  | seek (offset : Nat)
  | wr (offset : Nat) (data : List Nat)
  | fsync
deriving DecidableEq

/-- `write_completely_at` (lines 193-218): seek to `offset`; when
`erase_size` is nonzero, write `erase_size` zero bytes, `fsync`, and seek
back; then write the payload.  The short-read/short-write loops are
collapsed into single events since the model has no partial transfers.
The function itself issues no `fsync` after the payload write; its
callers do. -/
def write_completely_at (payload : List Nat) (offset : Nat) (erase_size : Nat) : List Ev :=
  [Ev.seek offset] ++
  (if erase_size ≠ 0 then [Ev.wr offset (List.replicate erase_size 0), Ev.fsync, Ev.seek offset] else []) ++
  [Ev.wr offset payload]

/-- Boot-device block size (lines 275, 366). -/
def blockSize (spiboot : Bool) : Nat := if spiboot then 32768 else 16384

/-- Boot-device page size (lines 276, 367). -/
def pageSize (spiboot : Bool) : Nat := if spiboot then 2048 else 512

/-- Number of BCT copies in block 0 on T210 (line 368). -/
def bctCopies (spiboot : Bool) : Nat := if spiboot then 2 else 1

/-- `bctslotsize` (line 294): payload length rounded up to the page size. -/
def bctSlotSize (spiboot : Bool) (len : Nat) : Nat :=
  pageSize spiboot * ((len + (pageSize spiboot - 1)) / pageSize spiboot)

/-- The `memcmp(newbct, (uint8_t *)curbct + offset, ent->length) == 0`
comparison guarded by `curbct != NULL` (lines 309, 428). -/
def bctMatchesAt (curbct : Option (List Nat)) (newbct : List Nat) (len : Nat) (offset : Nat) : Bool :=
  match curbct with
  | none => false
  | some c => decide ((c.drop offset).take len = newbct.take len)

/-- Same comparison with a signed offset (the T210 writer uses a signed
loop index).  All offsets reached under the preconditions proved below
are nonnegative. -/
def bctMatchesAtI (curbct : Option (List Nat)) (newbct : List Nat) (len : Nat) (offset : Int) : Bool :=
  bctMatchesAt curbct newbct len offset.toNat

/-- `update_bct` (lines 272-327), T186/T194 only.  Result: `none` on the
internal-error/validation failure paths, otherwise the ordered list of
BCT-partition-relative offsets at which the payload is written (each
write also pre-erases `bctSlotSize` bytes and targets absolute offset
`part.first_lba * 512 +` the returned offset).  `validOk` stands for the
result of `bct_update_valid_t18x`/`bct_update_valid_t19x`. -/
def update_bct (spiboot soctypeIsT210 : Bool) (curbct : Option (List Nat))
    (newbct : List Nat) (entLength : Nat) (validOk : Bool) : Option (List Nat) :=
  if soctypeIsT210 then none
  else if curbct.isSome && !validOk then none
  else some ((List.range 3).filterMap (fun i =>
    let offset := if i = 0 then bctSlotSize spiboot entLength
                  else if i = 1 then blockSize spiboot else 0
    if bctMatchesAt curbct newbct entLength offset then none else some offset))

/-- Descending list of integers from `hi` down to `lo` (empty when
`hi < lo`), with explicit fuel: the shape of the
`for (bctidx = bctstart; bctidx >= bctend; bctidx -= 1)` loop. -/
def descIntsAux : Nat → Int → Int → List Int
  | 0, _, _ => []
  | fuel + 1, hi, lo => if hi < lo then [] else hi :: descIntsAux fuel (hi - 1) lo

/-- Descending list of integers from `hi` down to `lo`. -/
def descInts (hi lo : Int) : List Int := descIntsAux (hi + 1 - lo).toNat hi lo

/-- `update_bct_t210` (lines 363-455).  Result: `none` on the internal
error, validation failure, page-multiple and block-size guard paths;
otherwise the ordered list of BCT-partition-relative offsets at which the
payload is written in this invocation (each with pre-erase `entLength`)
paired with the updated `which` state.  `validOk` stands for
`bct_update_valid_t21x`. -/
def update_bct_t210 (spiboot soctypeIsT210 : Bool) (curbct : Option (List Nat))
    (newbct : List Nat) (entLength : Nat) (part : GptEntry) (validOk : Bool)
    (which : Int) : Option (List Int × Int) :=
  if !soctypeIsT210 then none
  else if curbct.isSome && !validOk then none
  else if entLength % pageSize spiboot ≠ 0 then none
  else if blockSize spiboot < entLength * bctCopies spiboot then none
  else
    let bctpartsize := (part.last_lba - part.first_lba + 1) * 512
    let bctcount : Nat := min (bctpartsize / blockSize spiboot) 64
    let sel : Int × Int × Int :=
      if which < 0 then ((bctcount : Int) - 1, ((bctcount : Int) - 1, 1))
      else if which = 0 then (0, (0, -1))
      else ((bctcount : Int) - 2, (1, 0))
    let writes := (descInts sel.1 sel.2.1).flatMap (fun bctidx =>
      let offset := bctidx * (blockSize spiboot : Int)
      if bctMatchesAtI curbct newbct entLength offset then []
      else [offset] ++ (if bctidx = 0 ∧ bctCopies spiboot = 2
                        then [offset + (entLength : Int)] else []))
    some (writes, sel.2.2)

/-- The three successive invocations of `update_bct_t210` that the T210
ordered plan makes for one BCT entry, threading the caller-owned `which`
context that starts at `-1` (lines 1450, 1456-1457).  Result: the
concatenated write offsets and the three successive `which` outputs. -/
def bct_t210_sequence (spiboot : Bool) (curbct : Option (List Nat)) (newbct : List Nat)
    (entLength : Nat) (part : GptEntry) (validOk : Bool) : Option (List Int × List Int) :=
  match update_bct_t210 spiboot true curbct newbct entLength part validOk (-1) with
  | none => none
  | some (w1, wh1) =>
    match update_bct_t210 spiboot true curbct newbct entLength part validOk wh1 with
    | none => none
    | some (w2, wh2) =>
      match update_bct_t210 spiboot true curbct newbct entLength part validOk wh2 with
      | none => none
      | some (w3, wh3) => some (w1 ++ w2 ++ w3, [wh1, wh2, wh3])

/-- Events of one T186/T194 BCT write at relative offset `o`
(line 313): `write_completely_at(bootfd, newbct, ent->length,
ent->part->first_lba * 512 + offset, bctslotsize)`. -/
def bctWriteEvents (spiboot : Bool) (payload : List Nat) (entLength firstLba : Nat) (o : Nat) : List Ev :=
  write_completely_at (payload.take entLength) (firstLba * 512 + o) (bctSlotSize spiboot entLength)

/-- Events of one T210 BCT write at relative offset `o` (lines 435, 443):
`write_completely_at(bootfd, contentbuf, ent->length,
ent->part->first_lba * 512 + offset, ent->length)`. -/
def bctWriteEventsT210 (payload : List Nat) (entLength firstLba : Nat) (o : Int) : List Ev :=
  write_completely_at (payload.take entLength) (firstLba * 512 + o.toNat) entLength

/-- `maybe_update_bootpart` (lines 477-526).  `cur` is the partition
content that `read_completely_at` places in `slotbuf`; `payload` is
`contentbuf`; `readOk` is the success of that read; `gptfdValid` models
`gptfd >= 0`.  Result: the C return value paired with the event trace on
the device handles. -/
def maybe_update_bootpart (spiboot soctypeIsT210 : Bool) (bootdev_size : Nat)
    (gptfdValid : Bool) (ent : UpdateEntry) (part : GptEntry) (is_bct : Bool)
    (initMode : Bool) (cur payload : List Nat) (readOk validOk : Bool)
    (which : Int) : Int × List Ev :=
  let partsize := (part.last_lba - part.first_lba + 1) * 512
  if partsize < ent.length then (-1, [])
  else
    let offset0 := part.first_lba * 512
    if bootdev_size ≤ offset0 ∧ ¬gptfdValid then (-1, [])
    else
      let offset := if bootdev_size ≤ offset0 then offset0 - bootdev_size else offset0
      if ¬readOk then (-1, [])
      else if is_bct then
        if soctypeIsT210 then
          match update_bct_t210 spiboot true (if initMode then none else some cur)
              payload ent.length part validOk which with
          | none => (-1, [])
          | some (ws, _) =>
            (0, ws.flatMap (bctWriteEventsT210 payload ent.length part.first_lba) ++ [Ev.fsync])
        else
          match update_bct spiboot false (if initMode then none else some cur)
              payload ent.length validOk with
          | none => (-1, [])
          | some ws =>
            (0, ws.flatMap (bctWriteEvents spiboot payload ent.length part.first_lba) ++ [Ev.fsync])
      else if payload.take ent.length = cur.take ent.length then (0, [])
      else (0, write_completely_at (payload.take ent.length) offset partsize ++ [Ev.fsync])

/-- `process_entry` (lines 544-609).  `bupPosOk`/`bupReadOk` are the
success of `bup_setpos` and of the content-read loop; `payload` is
`contentbuf` after that loop; `cur` is the current content of a GPT
target (unused for device-node targets: the code never reads those);
`devOpenOk` covers the `open` and the two `lseek` calls on the device
node, whose end offset is `devSize`. -/
def process_entry (spiboot soctypeIsT210 : Bool) (bootdev_size : Nat) (gptfdValid : Bool)
    (ent : UpdateEntry) (dryrun : Bool) (initMode : Bool)
    (bupPosOk bupReadOk : Bool) (payload cur : List Nat)
    (devOpenOk : Bool) (devSize : Nat) (readOk validOk : Bool) (which : Int) :
    Int × List Ev :=
  if ¬bupPosOk then (-1, [])
  else if ¬bupReadOk then (-1, [])
  else if dryrun then (0, [])
  else match ent.part with
    | some p =>
      maybe_update_bootpart spiboot soctypeIsT210 bootdev_size gptfdValid ent p
        (ent.partname = "BCT") initMode cur payload readOk validOk which
    | none =>
      if ¬devOpenOk then (-1, [])
      else (0, write_completely_at (payload.take ent.length) 0 devSize ++ [Ev.fsync])

/-- The five names `order_entries` singles out (lines 633-648). -/
def isSpecial (s : String) : Bool :=
  s = "mb1" || s = "mb1_b" || s = "mb2" || s = "mb2_b" || s = "BCT"

/-- The scan state of `order_entries`: the (last) saved entry for each of
the four mb names, the first up to three BCT occurrences, and the other
entries in input order. -/
structure OrderState where
  mb1 : Option UpdateEntry
  mb1b : Option UpdateEntry
  mb2 : Option UpdateEntry
  mb2b : Option UpdateEntry
  bcts : List UpdateEntry
  others : List UpdateEntry
deriving DecidableEq

/-- One iteration of the scan loop of `order_entries` (lines 632-651). -/
def orderStep (s : OrderState) (e : UpdateEntry) : OrderState :=
  if e.partname = "mb1" then { s with mb1 := some e }
  else if e.partname = "mb1_b" then { s with mb1b := some e }
  else if e.partname = "mb2" then { s with mb2 := some e }
  else if e.partname = "mb2_b" then { s with mb2b := some e }
  else if e.partname = "BCT" then
    (if s.bcts.length < 3 then { s with bcts := s.bcts ++ [e] } else s)
  else { s with others := s.others ++ [e] }

/-- `order_entries` (lines 624-671), T186/T194 only: scan, then emit
others, mb2, mb2_b, the BCT occurrences, mb1, mb1_b (lines 653-666). -/
def order_entries (orig : List UpdateEntry) : List UpdateEntry :=
  let s := orig.foldl orderStep ⟨none, none, none, none, [], []⟩
  s.others ++ s.mb2.toList ++ s.mb2b.toList ++ s.bcts ++ s.mb1.toList ++ s.mb1b.toList

/-- `t210_emmc_partnames` (lines 92-99). -/
def t210_emmc_partnames : List String :=
  ["VER_b", "BCT", "NVC-1",
   "PT-1", "TBC-1", "RP1-1", "EBT-1", "WB0-1", "BPF-1", "DTB-1", "TOS-1", "EKS-1", "LNX-1",
   "BCT",
   "BCT",
   "PT", "TBC", "RP1", "EBT", "WB0", "BPF", "DTB", "TOS", "EKS", "LNX",
   "NVC", "VER"]

/-- `t210_spi_sd_partnames` (lines 100-106). -/
def t210_spi_sd_partnames : List String :=
  ["VER_b", "BCT", "NVC_R",
   "BCT",
   "BCT",
   "PT", "TBC", "RP1", "EBT", "WB0", "BPF", "DTB", "TOS", "EKS", "LNX",
   "NVC", "VER"]

/-- The per-medium T210 template (lines 719-721). -/
def t210Template (spiboot : Bool) : List String :=
  if spiboot then t210_spi_sd_partnames else t210_emmc_partnames

/-- `find_entry_by_name` (lines 684-693): the first entry with the given
name, together with its index (the C returns a pointer; the index models
`ent - orig`). -/
def find_entry_by_name (l : List UpdateEntry) (name : String) : Option (Nat × UpdateEntry) :=
  l.enum.find? (fun p => p.2.partname = name)

/-- `memcmp(update_list->partnames[i], "EKS", 3) == 0` (line 735): the
name begins with the three bytes "EKS". -/
def isEKSName (n : String) : Bool := n.data.take 3 = ['E', 'K', 'S']

/-- The template walk of `order_entries_t210` (lines 731-745): for each
template name, the first matching entry with its index; a missing name
is skipped when it begins with "EKS" and fatal (`none`) otherwise. -/
def collectTemplate (orig : List UpdateEntry) : List String → Option (List (Nat × UpdateEntry))
  | [] => some []
  | n :: rest =>
    match find_entry_by_name orig n with
    | some p =>
      match collectTemplate orig rest with
      | some t => some (p :: t)
      | none => none
    | none =>
      if isEKSName n then collectTemplate orig rest
      else none

/-- `order_entries_t210` (lines 716-752).  `none` models the fatal
`return 0` paths (entry list too long, or a non-EKS template name with no
matching entry); otherwise the template hits in template order followed
by the entries not consumed by the template, in input order. -/
def order_entries_t210 (spiboot : Bool) (orig : List UpdateEntry) : Option (List UpdateEntry) :=
  if 128 < orig.length then none
  else
    match collectTemplate orig (t210Template spiboot) with
    | none => none
    | some hits =>
      some (hits.map Prod.snd ++
        (orig.enum.filter (fun p => !((hits.map Prod.fst).contains p.1))).map Prod.snd)

/-- `redundant_part_format` (lines 232-242), composed with the `sprintf`
that applies it (lines 832-833, 1325, 1397): the name of the redundant
("other") copy of a partition. -/
def redundant_part_format (soctypeIsT210 spiboot : Bool) (partname : String) : String :=
  if !soctypeIsT210 then partname ++ "_b"
  else if partname = "NVC" then (if spiboot then partname ++ "_R" else partname ++ "-1")
  else if partname = "VER" then partname ++ "_b"
  else partname ++ "-1"

/-- `struct ver_info_s` as consumed by the orchestrator: the packed BSP
version and the CRC extracted by `ver_extract_info`. -/
structure VerInfo where
  bsp_version : Nat
  crc : Nat
deriving DecidableEq

/-- `invalid_version_or_downgrade` (lines 818-969), with the I/O
abstracted: `haveVer` is whether a "VER" entry occurs in the entry list
(line 848); `bupOk` is the success of positioning, reading and
`ver_extract_info` on the BUP's VER payload (lines 854-869); `partsOk` is
the success of locating and reading each present VER partition (lines
876-890); `v0`/`v1` are `verinfo[0]`/`verinfo[1]` after extraction (a
missing or unparseable partition leaves the zeroed value); `nvcMatch` is
`nvc_parts_match`; `force` is `force_initialize`.  `true` means the
update is refused. -/
def invalid_version_or_downgrade (haveVer bupOk partsOk : Bool)
    (bup v0 v1 : VerInfo) (nvcMatch force : Bool) : Bool :=
  if !haveVer then false
  else if !bupOk then true
  else if !partsOk then true
  else if v0.bsp_version = v1.bsp_version ∧ v0.bsp_version ≠ 0 then
    (if bup.bsp_version < v0.bsp_version then true
     else if v0.crc = v1.crc ∧ !nvcMatch then true
     else false)
  else if v1.bsp_version = 0 ∧ v0.bsp_version ≠ 0 ∧ bup.bsp_version < v0.bsp_version then
    (if force then false else true)
  else if v1.bsp_version ≠ 0 ∧ v1.bsp_version ≠ bup.bsp_version then true
  else if force then false
  else true

/-- Runs `process_entry` results in order, stopping at the first failure
(lines 1456-1458, 1462-1464): whether all succeeded, and how many
entries were processed (`process_entry` is called on the failing entry
too). -/
def runSeq : List Bool → Bool × Nat
  | [] => (true, 0)
  | r :: rest =>
    if r then ((runSeq rest).1, (runSeq rest).2 + 1) else (false, 1)

/-- The outcome-relevant state of one `main` execution from the point the
buffers are allocated (line 1449) to `reset_and_depart`, with each
fallible step abstracted to its success value.  `preOk` covers every
fallible step between startup and line 1448 (each of those exits through
`goto reset_and_depart` with `ret` still 1).  `initCount` is the C
`initialize` counter (0, 1, or 2).  `smdUpdateOk` is the result of
`smd_update` at line 1491 — note the code only `perror`s on its
failure. -/
structure Env where
  preOk : Bool
  t210 : Bool
  gateRejects : Bool
  t210OrderCount : Nat
  initCount : Nat
  dryrun : Bool
  slotSpecified : Bool
  curslot : Int
  redundantResults : List Bool
  nonredundantResults : List Bool
  bctUpdated : Bool
  mb1OtherPresent : Bool
  mb1OtherResult : Bool
  markActiveOk : Bool
  smdUpdateOk : Bool
deriving DecidableEq

/-- The commit step (lines 1481-1494): SMD is only touched when no slot
suffix was given; dry-run prints and succeeds; a `smd_slot_mark_active`
failure aborts with `ret = 1`; an `smd_update` failure is only reported
(`perror`) and execution still reaches `ret = 0`. -/
def commitResult (e : Env) (n : Nat) : Nat × Nat :=
  if e.slotSpecified then (0, n)
  else if e.dryrun then (0, n)
  else if e.markActiveOk then (0, n)
  else (1, n)

/-- `main` from line 1449 to its return value: the pair of the exit
status (`ret`) and the number of `process_entry` invocations. -/
def mainTail (e : Env) : Nat × Nat :=
  if ¬e.preOk then (1, 0)
  else if e.t210 then
    if e.gateRejects then (1, 0)
    else if e.t210OrderCount = 0 then (1, 0)
    else
      let p := runSeq e.redundantResults
      if p.1 then (0, p.2) else (1, p.2)
  else
    let p := runSeq e.redundantResults
    if ¬p.1 then (1, p.2)
    else if e.initCount ≠ 0 then
      let q := runSeq e.nonredundantResults
      if q.1 then commitResult e (p.2 + q.2) else (1, p.2 + q.2)
    else if e.bctUpdated then
      if ¬e.mb1OtherPresent then (1, p.2)
      else if e.mb1OtherResult then commitResult e (p.2 + 1)
      else (1, p.2 + 1)
    else commitResult e p.2

/-- Whether the execution reaches the `smd_update` call at line 1491. -/
def smdPersistReached (e : Env) : Bool :=
  e.preOk && !e.t210 && (runSeq e.redundantResults).1 &&
  (if e.initCount ≠ 0 then (runSeq e.nonredundantResults).1
   else !e.bctUpdated || (e.mb1OtherPresent && e.mb1OtherResult)) &&
  !e.slotSpecified && !e.dryrun && e.markActiveOk

/-- Success of every fallible step of `mainTail` other than the
`smd_update` persist: the exit status is 0 exactly on these executions. -/
def mainOkExceptSmd (e : Env) : Bool :=
  e.preOk &&
  (if e.t210 then
    !e.gateRejects && e.t210OrderCount ≠ 0 && e.redundantResults.all id
  else
    e.redundantResults.all id &&
    (if e.initCount ≠ 0 then e.nonredundantResults.all id
     else !e.bctUpdated || (e.mb1OtherPresent && e.mb1OtherResult)) &&
    (e.slotSpecified || e.dryrun || e.markActiveOk))

/-- Suffix derivation for update mode on T186/T194 when no slot suffix
was given (lines 1137-1140): the opposite of the SMD's current slot. -/
def derive_suffix (curslot : Int) : String :=
  if curslot = 0 then "_b" else ""

/-- The partition-name choice for a redundant entry in update mode
(lines 1369-1371 and 1415): the base name unless the other copy exists
and the suffix is nonempty. -/
def update_copy_name (partname partname_b : String) (part_b_exists : Bool)
    (suffix : String) : String :=
  if part_b_exists = false ∨ suffix = "" then partname else partname_b

/-- The A/B slot a copy name designates on T186/T194: slot 1 for the
`_b` copy, slot 0 otherwise. -/
def slot_of_name (base chosen : String) : Nat :=
  if chosen = base ++ "_b" then 1 else 0

/-- `newslot` at lines 1483 and 1485. -/
def commit_newslot (initCount : Nat) (curslot : Int) : Int :=
  if initCount ≠ 0 then 0 else 1 - curslot

/-- One entry of the BUP's enumeration stream (line 1321):
`bup_enumerate_entries` yields name, payload offset and payload length. -/
structure BupEnumEntry where
  partname : String
  offset : Nat
  length : Nat
deriving DecidableEq

/-- The environment-dependent lookups made for one enumerated entry:
`gpt_find_by_name` on the name and on its redundant name (lines
1333, 1338), the two `access` checks on
`/dev/disk/by-partlabel/<name>` and the redundant path (lines 1389,
1398), and `partition_should_be_present` (line 1390). -/
structure ResolveInfo where
  part : Option GptEntry
  part_b : Option GptEntry
  devAccessible : Bool
  devBAccessible : Bool
  shouldBePresent : Bool
deriving DecidableEq

/-- The running state of the plan-building loop (lines 1314-1434):
the two task lists, the saved other-mb1 entry, and `largest_length`. -/
structure PlanState where
  red : List UpdateEntry
  nonred : List UpdateEntry
  mb1_other : Option UpdateEntry
  largest : Nat
deriving DecidableEq

/-- The `updent` initialised at lines 1326-1329. -/
def mkUpdent (pe : BupEnumEntry) : UpdateEntry :=
  { partname := pe.partname, part := none, devname := "", bup_offset := pe.offset,
    length := pe.length }

/-- One iteration of the enumeration loop of `main` (lines 1321-1420).
`none` models the fatal `goto reset_and_depart` paths (too many
partitions; a missing external partition that should be present). -/
def planStep (soctypeIsT210 spiboot : Bool) (initMode : Bool) (suffix : String)
    (st : PlanState) (x : BupEnumEntry × ResolveInfo) : Option PlanState :=
  let pe := x.1
  let r := x.2
  let partname_b := redundant_part_format soctypeIsT210 spiboot pe.partname
  let updent := mkUpdent pe
  let st := { st with largest := if st.largest < pe.length then pe.length else st.largest }
  match r.part with
  | some part =>
    if initMode then
      if r.part_b.isSome || pe.partname = "BCT" then
        if 64 ≤ st.red.length then none
        else
          let st := { st with red := st.red ++ [{ updent with part := some part }] }
          match r.part_b with
          | some pb =>
            some { st with red := st.red ++ [{ updent with partname := partname_b, part := some pb }] }
          | none => some st
      else
        if 64 ≤ st.nonred.length then none
        else some { st with nonred := st.nonred ++ [{ updent with part := some part }] }
    else
      if r.part_b.isSome || pe.partname = "BCT" then
        if 64 ≤ st.red.length then none
        else
          let chosen : UpdateEntry :=
            if r.part_b.isNone || suffix = "" then { updent with part := some part }
            else { updent with partname := partname_b, part := r.part_b }
          let st := { st with red := st.red ++ [chosen] }
          let other : UpdateEntry :=
            if suffix = "" then { updent with partname := partname_b, part := r.part_b }
            else { updent with part := some part }
          if pe.partname = "mb1" then some { st with mb1_other := some other }
          else some st
      else some st
  | none =>
    let pathname := "/dev/disk/by-partlabel/" ++ pe.partname
    let pathname_b := "/dev/disk/by-partlabel/" ++ partname_b
    if !r.devAccessible then
      (if r.shouldBePresent then none else some st)
    else if initMode then
      if r.devBAccessible then
        some { st with red := st.red ++
          [{ updent with devname := pathname },
           { updent with partname := partname_b, devname := pathname_b }] }
      else
        some { st with nonred := st.nonred ++ [{ updent with devname := pathname }] }
    else
      if r.devBAccessible then
        some { st with red := st.red ++
          [if suffix = "" then { updent with devname := pathname }
           else { updent with partname := partname_b, devname := pathname_b }] }
      else some st

/-- The whole enumeration loop (lines 1314-1420) followed by the T210
merge of the non-redundant list into the redundant one (lines
1425-1434).  On success, `largest` is the value assigned to
`contentbuf_size` at line 1447. -/
def buildPlan (soctypeIsT210 spiboot : Bool) (initMode : Bool) (suffix : String)
    (entries : List (BupEnumEntry × ResolveInfo)) : Option PlanState :=
  match entries.foldl (fun acc x => acc.bind (fun st => planStep soctypeIsT210 spiboot initMode suffix st x))
      (some { red := [], nonred := [], mb1_other := none, largest := 0 }) with
  | none => none
  | some st =>
    if soctypeIsT210 then
      if 64 < st.red.length + st.nonred.length then none
      else some { st with red := st.red ++ st.nonred, nonred := [] }
    else some st

/-- The totals reached by the content-read loop of `process_entry`
(lines 559-566) and of `invalid_version_or_downgrade` (lines 858-864):
`for (total = 0; total < len; total += n) n = bup_read(..., contentbuf + total,
bufsize - total)`.  `readFn k r` is the byte count the `k`-th `bup_read`
call returns when asked for `r` bytes; the loop body runs while
`total < len`, and on a nonpositive return the function exits (the list
ends).  `fuel` bounds the number of iterations modelled. -/
def readTotalsAux (readFn : Nat → Nat → Nat) (len bufsize : Nat) :
    Nat → Nat → Nat → List Nat
  | 0, _, total => [total]
  | fuel + 1, k, total =>
    if total < len then
      total :: readTotalsAux readFn len bufsize fuel (k + 1) (total + readFn k (bufsize - total))
    else [total]

/-- The totals reached by the content-read loop, from `total = 0`. -/
def readTotals (readFn : Nat → Nat → Nat) (len bufsize fuel : Nat) : List Nat :=
  readTotalsAux readFn len bufsize fuel 0 0

/-- The value of a scanned variable that is overwritten by each
matching entry (the `mb1 = i` style assignments of `order_entries`):
the last element of the list, or the initial value when none matched. -/
def lastSaved (o : Option UpdateEntry) (l : List UpdateEntry) : Option UpdateEntry :=
  l.foldl (fun _ x => some x) o

/-- The buffer-safety invariant carried by the enumeration loop: every
planned entry's payload length is bounded by the running maximum that
becomes `contentbuf_size`. -/
def planInv (st : PlanState) : Prop :=
  (∀ e ∈ st.red, e.length ≤ st.largest) ∧
  (∀ e ∈ st.nonred, e.length ≤ st.largest) ∧
  (∀ e ∈ st.mb1_other.toList, e.length ≤ st.largest)

/-! ## Helper lemmas -/

theorem runSeq_fst (l : List Bool) : (runSeq l).1 = l.all id := by
  induction l with
  | nil => rfl
  | cons r t ih => cases r <;> simp [runSeq, ih]

/-! ## C5: write primitive -/

/-- Claim C5, counterexample: a successful `write_completely_at` call
with `erase_size = 0` issues no flush at all, so no flush follows the
payload write within the call. -/
theorem write_completely_at_no_fsync :
    Ev.fsync ∉ write_completely_at [1] 0 0 ∧
    write_completely_at [1] 0 0 = [Ev.seek 0, Ev.wr 0 [1]] := by
  decide

/-- Claim C5 (amended): with `erase_size > 0` the call writes the zero
fill, flushes, seeks back and writes the payload; with `erase_size = 0`
it only seeks and writes the payload, with no flush; the flush after the
payload write is issued by the callers (`maybe_update_bootpart` and
`process_entry` append an `fsync` right after the call). -/
theorem write_completely_at_spec :
    (∀ (p : List Nat) (o e : Nat), 0 < e →
      write_completely_at p o e =
        [Ev.seek o, Ev.wr o (List.replicate e 0), Ev.fsync, Ev.seek o, Ev.wr o p]) ∧
    (∀ (p : List Nat) (o : Nat),
      write_completely_at p o 0 = [Ev.seek o, Ev.wr o p]) ∧
    (∀ (spiboot soctypeIsT210 : Bool) (bds : Nat) (gfd : Bool) (ent : UpdateEntry)
       (part : GptEntry) (initMode : Bool) (cur payload : List Nat) (validOk : Bool)
       (which : Int),
      ent.length ≤ (part.last_lba - part.first_lba + 1) * 512 →
      part.first_lba * 512 < bds →
      payload.take ent.length ≠ cur.take ent.length →
      maybe_update_bootpart spiboot soctypeIsT210 bds gfd ent part false initMode
          cur payload true validOk which =
        (0, write_completely_at (payload.take ent.length) (part.first_lba * 512)
              ((part.last_lba - part.first_lba + 1) * 512) ++ [Ev.fsync])) ∧
    (∀ (spiboot soctypeIsT210 : Bool) (bds : Nat) (gfd : Bool) (ent : UpdateEntry)
       (initMode : Bool) (payload cur : List Nat) (devSize : Nat) (validOk : Bool)
       (which : Int),
      ent.part = none →
      process_entry spiboot soctypeIsT210 bds gfd ent false initMode true true
          payload cur true devSize true validOk which =
        (0, write_completely_at (payload.take ent.length) 0 devSize ++ [Ev.fsync])) := by
  refine ⟨?_, ?_, ?_, ?_⟩
  · intro p o e he
    simp [write_completely_at, Nat.pos_iff_ne_zero.mp he]
  · intro p o
    simp [write_completely_at]
  · intro spiboot t210 bds gfd ent part initMode cur payload validOk which hlen hoff hne
    simp only [maybe_update_bootpart]
    rw [if_neg (by omega)]
    rw [if_neg (by omega)]
    rw [if_neg (by simp)]
    rw [if_neg (by simp)]
    rw [if_neg hne]
    rw [if_neg (by omega)]
  · intro spiboot t210 bds gfd ent initMode payload cur devSize validOk which hpart
    simp [process_entry, hpart]
/-! ## C8: exit status mapping -/

/-- Claim C8, counterexample: an execution in which every step succeeds
except the `smd_update` persist of the slot metadata during commit — a
step after startup that fails — still exits with status 0, because the
code only `perror`s that failure and falls through to `ret = 0`. -/
theorem smd_update_failure_exits_zero :
    (mainTail ⟨true, false, false, 0, 0, false, false, 0, [true, true], [],
               false, false, false, true, false⟩).1 = 0 ∧
    smdPersistReached ⟨true, false, false, 0, 0, false, false, 0, [true, true], [],
               false, false, false, true, false⟩ = true ∧
    Env.smdUpdateOk ⟨true, false, false, 0, 0, false, false, 0, [true, true], [],
               false, false, false, true, false⟩ = false := by
  decide

/-- Claim C8 (amended): the exit status is 0 exactly when every fallible
step other than the `smd_update` persist succeeds; every other failure
is mapped to exit status 1, but a failure of the `smd_update` persist
during commit is only reported and the program still exits 0. -/
theorem mainTail_exit_status (e : Env) :
    (mainTail e).1 = (if mainOkExceptSmd e then 0 else 1) := by
  cases hpre : e.preOk with
  | false => simp [mainTail, mainOkExceptSmd, hpre]
  | true =>
    cases ht : e.t210 with
    | true =>
      cases hg : e.gateRejects with
      | true => simp [mainTail, mainOkExceptSmd, hpre, ht, hg]
      | false =>
        by_cases hc : e.t210OrderCount = 0
        · simp [mainTail, mainOkExceptSmd, hpre, ht, hg, hc]
        · cases hall : e.redundantResults.all id with
          | true => simp [mainTail, mainOkExceptSmd, hpre, ht, hg, hc, runSeq_fst, hall]
          | false => simp [mainTail, mainOkExceptSmd, hpre, ht, hg, hc, runSeq_fst, hall]
    | false =>
      cases hall : e.redundantResults.all id with
      | false => simp [mainTail, mainOkExceptSmd, hpre, ht, runSeq_fst, hall]
      | true =>
        by_cases hic : e.initCount = 0
        case neg =>
          cases hq : e.nonredundantResults.all id with
          | false =>
            simp [mainTail, mainOkExceptSmd, commitResult, hpre, ht, runSeq_fst, hall, hic, hq]
          | true =>
            by_cases hss : e.slotSpecified = true <;> by_cases hdry : e.dryrun = true <;>
              by_cases hma : e.markActiveOk = true <;>
              simp [mainTail, mainOkExceptSmd, commitResult, hpre, ht, runSeq_fst, hall,
                    hic, hq, hss, hdry, hma]
        case pos =>
          cases hbu : e.bctUpdated with
          | false =>
            by_cases hss : e.slotSpecified = true <;> by_cases hdry : e.dryrun = true <;>
              by_cases hma : e.markActiveOk = true <;>
              simp [mainTail, mainOkExceptSmd, commitResult, hpre, ht, runSeq_fst, hall,
                    hic, hbu, hss, hdry, hma]
          | true =>
            cases hmp : e.mb1OtherPresent with
            | false =>
              simp [mainTail, mainOkExceptSmd, commitResult, hpre, ht, runSeq_fst, hall,
                    hic, hbu, hmp]
            | true =>
              cases hmr : e.mb1OtherResult with
              | false =>
                simp [mainTail, mainOkExceptSmd, commitResult, hpre, ht, runSeq_fst, hall,
                      hic, hbu, hmp, hmr]
              | true =>
                by_cases hss : e.slotSpecified = true <;> by_cases hdry : e.dryrun = true <;>
                  by_cases hma : e.markActiveOk = true <;>
                  simp [mainTail, mainOkExceptSmd, commitResult, hpre, ht, runSeq_fst, hall,
                        hic, hbu, hmp, hmr, hss, hdry, hma]

/-! ## C3: T210 rollback refusal -/

/-- Claim C3: on T210, when both VER partitions parse to the same
non-zero BSP version and that version is strictly greater than the BUP
payload's, `invalid_version_or_downgrade` returns true for any NVC state
and any force flag, and the orchestrator then exits with status 1 having
processed no plan entry (so no partition is written). -/
theorem t210_rollback_reject :
    (∀ (bup v0 v1 : VerInfo) (nvcMatch force : Bool),
      v0.bsp_version = v1.bsp_version → v0.bsp_version ≠ 0 →
      bup.bsp_version < v0.bsp_version →
      invalid_version_or_downgrade true true true bup v0 v1 nvcMatch force = true) ∧
    (∀ e : Env, e.preOk = true → e.t210 = true → e.gateRejects = true →
      mainTail e = (1, 0)) := by
  constructor
  · intro bup v0 v1 nvcMatch force heq hne hlt
    unfold invalid_version_or_downgrade
    rw [if_neg (by simp), if_neg (by simp), if_neg (by simp), if_pos ⟨heq, hne⟩, if_pos hlt]
  · intro e hpre ht hg
    simp [mainTail, hpre, ht, hg]

/-- Witness for C3 at concrete inputs: current version 2.0.0 (packed
131072) on both VER partitions, BUP version 1.0.0 (packed 65536). -/
theorem t210_rollback_reject_witness :
    invalid_version_or_downgrade true true true ⟨65536, 0⟩ ⟨131072, 7⟩ ⟨131072, 7⟩ true false = true ∧
    mainTail ⟨true, true, true, 5, 2, false, false, 0, [true], [], false, false, false,
              true, true⟩ = (1, 0) :=
  ⟨t210_rollback_reject.1 ⟨65536, 0⟩ ⟨131072, 7⟩ ⟨131072, 7⟩ true false (by decide) (by decide)
     (by decide),
   t210_rollback_reject.2 ⟨true, true, true, 5, 2, false, false, 0, [true], [], false, false,
     false, true, true⟩ (by decide) (by decide) (by decide)⟩

/-! ## C9: implicit slot targeting and commit -/

/-- Claim C9: on T186/T194 in update mode with no explicit suffix, the
derived suffix is "_b" exactly when the current slot is 0 and empty
otherwise; a redundant entry whose other copy exists therefore targets
the copy of slot `1 - curslot`, and the commit marks exactly slot
`1 - curslot` active. -/
theorem implicit_slot_update (curslot : Int) (hc : curslot = 0 ∨ curslot = 1)
    (base : String) :
    (curslot = 0 → derive_suffix curslot = "_b") ∧
    (curslot ≠ 0 → derive_suffix curslot = "") ∧
    ((slot_of_name base (update_copy_name base (redundant_part_format false false base) true
        (derive_suffix curslot)) : Int) = 1 - curslot) ∧
    (commit_newslot 0 curslot = 1 - curslot) ∧
    ((slot_of_name base (update_copy_name base (redundant_part_format false false base) true
        (derive_suffix curslot)) : Int) = commit_newslot 0 curslot) := by
  have hlen : (base ++ "_b").length = base.length + 2 := by
    rw [String.length_append]
    rfl
  have hbase : base ++ "_b" ≠ base := by
    intro h
    have := congrArg String.length h
    omega
  have hbase2 : base ≠ base ++ "_b" := Ne.symm hbase
  rcases hc with h0 | h1
  · subst h0
    refine ⟨fun _ => rfl, fun h => absurd rfl h, ?_, rfl, ?_⟩ <;>
      simp [slot_of_name, update_copy_name, redundant_part_format, derive_suffix,
            commit_newslot]
  · subst h1
    refine ⟨fun h => absurd h (by decide), fun _ => rfl, ?_, rfl, ?_⟩ <;>
      simp [slot_of_name, update_copy_name, redundant_part_format, derive_suffix,
            commit_newslot, hbase2]

/-- Witness for C9 at current slot 0 and base name "cboot". -/
theorem implicit_slot_update_witness :
    ((0 : Int) = 0 ∨ (0 : Int) = 1) ∧
    ((slot_of_name "cboot" (update_copy_name "cboot"
        (redundant_part_format false false "cboot") true (derive_suffix 0)) : Int) = 1 - 0) ∧
    commit_newslot 0 0 = 1 - 0 :=
  ⟨Or.inl rfl,
   (implicit_slot_update 0 (Or.inl rfl) "cboot").2.2.1,
   (implicit_slot_update 0 (Or.inl rfl) "cboot").2.2.2.1⟩

/-! ## C4: idempotence of the second run -/

/-- Claim C4, counterexample: an entry targeting an external device node
is written even when the device's current contents (here `[7,7]`) equal
the payload — `process_entry` performs no comparison on that path, so a
second run is not write-free. -/
theorem device_node_rewrite :
    (process_entry false false 0 true ⟨"xusb-fw", none, "/dev/disk/by-partlabel/xusb-fw", 0, 2⟩
        false false true true [7, 7] [7, 7] true 2 true true 0).2
      = [Ev.seek 0, Ev.wr 0 [0, 0], Ev.fsync, Ev.seek 0, Ev.wr 0 [7, 7], Ev.fsync] ∧
    Ev.wr 0 [7, 7] ∈ (process_entry false false 0 true
        ⟨"xusb-fw", none, "/dev/disk/by-partlabel/xusb-fw", 0, 2⟩
        false false true true [7, 7] [7, 7] true 2 true true 0).2 := by
  decide

/-- Claim C4 (amended): a second identical run performs no writes for
entries that target GPT partitions — the plain path skips when the
target's contents equal the payload, and both BCT writers skip every
copy whose contents match — but entries targeting external device nodes
are rewritten unconditionally on every run. -/
theorem second_run_skips :
    (∀ (spiboot soctypeIsT210 : Bool) (bds : Nat) (gfd : Bool) (ent : UpdateEntry)
       (part : GptEntry) (initMode : Bool) (cur payload : List Nat) (validOk : Bool)
       (which : Int),
      ent.length ≤ (part.last_lba - part.first_lba + 1) * 512 →
      part.first_lba * 512 < bds →
      payload.take ent.length = cur.take ent.length →
      maybe_update_bootpart spiboot soctypeIsT210 bds gfd ent part false initMode
        cur payload true validOk which = (0, [])) ∧
    (∀ (spiboot : Bool) (cur newbct : List Nat) (len : Nat),
      bctMatchesAt (some cur) newbct len (bctSlotSize spiboot len) = true →
      bctMatchesAt (some cur) newbct len (blockSize spiboot) = true →
      bctMatchesAt (some cur) newbct len 0 = true →
      update_bct spiboot false (some cur) newbct len true = some []) ∧
    (∀ (spiboot : Bool) (cur newbct : List Nat) (len : Nat) (part : GptEntry),
      len % pageSize spiboot = 0 →
      len * bctCopies spiboot ≤ blockSize spiboot →
      (∀ o : Int, bctMatchesAtI (some cur) newbct len o = true) →
      bct_t210_sequence spiboot (some cur) newbct len part true = some ([], [1, 0, -1])) ∧
    (∀ (spiboot soctypeIsT210 : Bool) (bds : Nat) (gfd : Bool) (ent : UpdateEntry)
       (initMode : Bool) (payload : List Nat) (devSize : Nat) (validOk : Bool) (which : Int),
      ent.part = none →
      Ev.wr 0 (payload.take ent.length) ∈
        (process_entry spiboot soctypeIsT210 bds gfd ent false initMode true true
          payload payload true devSize true validOk which).2) := by
  refine ⟨?_, ?_, ?_, ?_⟩
  · intro spiboot t210 bds gfd ent part initMode cur payload validOk which hlen hoff heq
    simp only [maybe_update_bootpart]
    rw [if_neg (by omega)]
    rw [if_neg (by omega)]
    rw [if_neg (by simp)]
    rw [if_neg (by simp)]
    rw [if_pos heq]
  · intro spiboot cur newbct len h0 h1 h2
    have hr : List.range 3 = [0, 1, 2] := rfl
    simp [update_bct, hr, h0, h1, h2]
  · intro spiboot cur newbct len part hpage hblock hm
    have hw : ∀ which : Int,
        update_bct_t210 spiboot true (some cur) newbct len part true which =
          some ([], (if which < 0 then 1 else if which = 0 then -1 else 0 : Int)) := by
      intro which
      simp only [update_bct_t210]
      rw [if_neg (by simp), if_neg (by simp), if_neg (by omega), if_neg (by omega)]
      by_cases hwl : which < 0
      · simp [hwl]
        intro x hx
        exact hm _
      · by_cases hw0 : which = 0
        · simp [hwl, hw0]
          intro x hx
          exact hm _
        · simp [hwl, hw0]
          intro x hx
          exact hm _
    simp [bct_t210_sequence, hw]
  · intro spiboot t210 bds gfd ent initMode payload devSize validOk which hpart
    simp [process_entry, hpart, write_completely_at]

/-- Witness for C4 (amended) at concrete inputs. -/
theorem second_run_skips_witness :
    maybe_update_bootpart false false 4096 true ⟨"cboot", some ⟨0, 1⟩, "", 0, 2⟩ ⟨0, 1⟩
      false false [5, 5] [5, 5] true true 0 = (0, []) ∧
    update_bct false false (some []) [] 0 true = some [] ∧
    bct_t210_sequence true (some []) [] 0 ⟨0, 191⟩ true = some ([], [1, 0, -1]) ∧
    Ev.wr 0 (([3] : List Nat).take 1) ∈
      (process_entry false false 0 true ⟨"spe-fw", none, "/dev/disk/by-partlabel/spe-fw", 0, 1⟩
        false false true true [3] [3] true 1 true true 0).2 :=
  ⟨second_run_skips.1 false false 4096 true ⟨"cboot", some ⟨0, 1⟩, "", 0, 2⟩ ⟨0, 1⟩
      false [5, 5] [5, 5] true 0 (by decide) (by decide) (by decide),
   second_run_skips.2.1 false [] [] 0 (by decide) (by decide) (by decide),
   second_run_skips.2.2.1 true [] [] 0 ⟨0, 191⟩ (by decide) (by decide)
     (fun o => by simp [bctMatchesAtI, bctMatchesAt]),
   second_run_skips.2.2.2 false false 0 true ⟨"spe-fw", none, "/dev/disk/by-partlabel/spe-fw", 0, 1⟩
     false [3] 1 true 0 (by decide)⟩

/-! ## C6: size bound enforcement -/

/-- Claim C6, counterexample: an entry targeting an external device node
whose payload length (4) exceeds the device's size (2, the erase amount
obtained by seeking to its end) is still written — `process_entry`
performs no length check on that path. -/
theorem device_node_oversize_write :
    (process_entry false false 0 true ⟨"badpart", none, "/dev/disk/by-partlabel/badpart", 0, 4⟩
        false false true true [9, 9, 9, 9] [] true 2 true true 0).2
      = [Ev.seek 0, Ev.wr 0 [0, 0], Ev.fsync, Ev.seek 0, Ev.wr 0 [9, 9, 9, 9], Ev.fsync] ∧
    (2 : Nat) < 4 := by
  decide

/-- Claim C6 (amended): for entries targeting a GPT partition the bound
`payload length ≤ LBA span × 512` is checked before anything is read or
written and a violation fails with an empty trace; for entries targeting
an external device node no such check exists and the payload write is
attempted regardless of the device size. -/
theorem size_bound_enforcement :
    (∀ (spiboot soctypeIsT210 : Bool) (bds : Nat) (gfd : Bool) (ent : UpdateEntry)
       (part : GptEntry) (is_bct initMode : Bool) (cur payload : List Nat)
       (readOk validOk : Bool) (which : Int),
      (part.last_lba - part.first_lba + 1) * 512 < ent.length →
      maybe_update_bootpart spiboot soctypeIsT210 bds gfd ent part is_bct initMode
        cur payload readOk validOk which = (-1, [])) ∧
    (∀ (spiboot soctypeIsT210 : Bool) (bds : Nat) (gfd : Bool) (ent : UpdateEntry)
       (initMode : Bool) (payload cur : List Nat) (devSize : Nat) (validOk : Bool)
       (which : Int),
      ent.part = none →
      process_entry spiboot soctypeIsT210 bds gfd ent false initMode true true
          payload cur true devSize true validOk which =
        (0, write_completely_at (payload.take ent.length) 0 devSize ++ [Ev.fsync])) := by
  constructor
  · intro spiboot t210 bds gfd ent part is_bct initMode cur payload readOk validOk which hlen
    simp only [maybe_update_bootpart]
    rw [if_pos hlen]
  · intro spiboot t210 bds gfd ent initMode payload cur devSize validOk which hpart
    simp [process_entry, hpart]

/-- Witness for C6 (amended) at concrete inputs: a 2000-byte payload for
a two-sector (1024-byte) partition fails with no events; a device-node
entry is written with no size check. -/
theorem size_bound_enforcement_witness :
    maybe_update_bootpart false false 4096 true ⟨"cboot", some ⟨0, 1⟩, "", 0, 2000⟩ ⟨0, 1⟩
      false false [] [] true true 0 = (-1, []) ∧
    process_entry false false 0 true ⟨"adsp-fw", none, "/dev/disk/by-partlabel/adsp-fw", 0, 3⟩
        false false true true [1, 2, 3] [] true 2 true true 0 =
      (0, write_completely_at (([1, 2, 3] : List Nat).take 3) 0 2 ++ [Ev.fsync]) :=
  ⟨size_bound_enforcement.1 false false 4096 true ⟨"cboot", some ⟨0, 1⟩, "", 0, 2000⟩ ⟨0, 1⟩
     false false [] [] true true 0 (by decide),
   size_bound_enforcement.2 false false 0 true ⟨"adsp-fw", none, "/dev/disk/by-partlabel/adsp-fw", 0, 3⟩
     false [1, 2, 3] [] 2 true 0 (by decide)⟩

/-- Witness for C5 (amended) at concrete inputs. -/
theorem write_completely_at_spec_witness :
    write_completely_at [4] 8 2 = [Ev.seek 8, Ev.wr 8 [0, 0], Ev.fsync, Ev.seek 8, Ev.wr 8 [4]] ∧
    write_completely_at [4] 8 0 = [Ev.seek 8, Ev.wr 8 [4]] ∧
    maybe_update_bootpart false false 4096 true ⟨"cboot", some ⟨0, 1⟩, "", 0, 1⟩ ⟨0, 1⟩
        false false [6] [4] true true 0 =
      (0, write_completely_at (([4] : List Nat).take 1) 0 1024 ++ [Ev.fsync]) ∧
    process_entry false false 0 true ⟨"adsp-fw", none, "/dev/disk/by-partlabel/adsp-fw", 0, 1⟩
        false false true true [4] [] true 2 true true 0 =
      (0, write_completely_at (([4] : List Nat).take 1) 0 2 ++ [Ev.fsync]) :=
  ⟨write_completely_at_spec.1 [4] 8 2 (by decide),
   write_completely_at_spec.2.1 [4] 8,
   write_completely_at_spec.2.2.1 false false 4096 true ⟨"cboot", some ⟨0, 1⟩, "", 0, 1⟩ ⟨0, 1⟩
     false [6] [4] true 0 (by decide) (by decide) (by decide),
   write_completely_at_spec.2.2.2 false false 0 true
     ⟨"adsp-fw", none, "/dev/disk/by-partlabel/adsp-fw", 0, 1⟩ false [4] [] 2 true 0 (by decide)⟩

/-! ## C7: T210 template ordering -/

theorem collectTemplate_none (orig : List UpdateEntry) (n : String)
    (hEKS : isEKSName n = false) (habs : ∀ e ∈ orig, e.partname ≠ n) :
    ∀ tmpl : List String, n ∈ tmpl → collectTemplate orig tmpl = none := by
  intro tmpl
  induction tmpl with
  | nil => intro h; cases h
  | cons m rest ih =>
    intro hmem
    by_cases hmn : m = n
    · subst hmn
      have hfind : find_entry_by_name orig m = none := by
        unfold find_entry_by_name
        rw [List.find?_eq_none]
        intro p hp
        have hm : p.2 ∈ orig :=
          List.getElem?_mem (List.mem_enum_iff_getElem?.mp hp)
        simp only [decide_eq_true_eq]
        exact habs p.2 hm
      simp [collectTemplate, hfind, hEKS]
    · have hrest : n ∈ rest := by
        rcases List.mem_cons.mp hmem with h | h
        · exact absurd h.symm hmn
        · exact h
      cases hfind : find_entry_by_name orig m with
      | some p => simp [collectTemplate, hfind, ih hrest]
      | none =>
        by_cases hE : isEKSName m
        · simp [collectTemplate, hfind, hE, ih hrest]
        · simp [collectTemplate, hfind, hE]

theorem collectTemplate_some (orig : List UpdateEntry) :
    ∀ tmpl : List String,
      (∀ n ∈ tmpl, isEKSName n = false → (find_entry_by_name orig n).isSome) →
      collectTemplate orig tmpl = some (tmpl.filterMap (find_entry_by_name orig)) := by
  intro tmpl
  induction tmpl with
  | nil => intro _; rfl
  | cons m rest ih =>
    intro hall
    have hrest : ∀ n ∈ rest, isEKSName n = false → (find_entry_by_name orig n).isSome :=
      fun n hn => hall n (List.mem_cons.mpr (Or.inr hn))
    cases hfind : find_entry_by_name orig m with
    | some p => simp [collectTemplate, hfind, ih hrest, List.filterMap_cons]
    | none =>
      have hE : isEKSName m = true := by
        by_contra hE2
        have := hall m (List.mem_cons_self m rest)
          (by revert hE2; cases isEKSName m <;> simp)
        rw [hfind] at this
        simp at this
      simp [collectTemplate, hfind, hE, ih hrest, List.filterMap_cons]

/-- Claim C7: `order_entries_t210` appends, in template order, the first
input entry matching each template name; an absent template name
beginning with "EKS" is skipped silently; any other absent template name
makes the function fail (`none`), upon which the orchestrator aborts
with exit status 1 and processes nothing; after the template, every
input entry not consumed by the template is appended in input order. -/
theorem t210_template_order :
    (∀ (spiboot : Bool) (orig : List UpdateEntry) (n : String),
      n ∈ t210Template spiboot → isEKSName n = false →
      (∀ e ∈ orig, e.partname ≠ n) →
      order_entries_t210 spiboot orig = none) ∧
    (∀ (spiboot : Bool) (orig : List UpdateEntry),
      orig.length ≤ 128 →
      (∀ n ∈ t210Template spiboot, isEKSName n = false →
        (find_entry_by_name orig n).isSome) →
      order_entries_t210 spiboot orig =
        some (((t210Template spiboot).filterMap (find_entry_by_name orig)).map Prod.snd ++
          (orig.enum.filter (fun p =>
            !((((t210Template spiboot).filterMap (find_entry_by_name orig)).map
              Prod.fst).contains p.1))).map Prod.snd)) ∧
    (∀ e : Env, e.preOk = true → e.t210 = true → e.gateRejects = false →
      e.t210OrderCount = 0 → mainTail e = (1, 0)) := by
  refine ⟨?_, ?_, ?_⟩
  · intro spiboot orig n hn hEKS habs
    unfold order_entries_t210
    by_cases hlen : 128 < orig.length
    · simp [hlen]
    · simp [hlen, collectTemplate_none orig n hEKS habs _ hn]
  · intro spiboot orig hlen hall
    unfold order_entries_t210
    rw [if_neg (by omega), collectTemplate_some orig _ hall]
  · intro e h1 h2 h3 h4
    simp [mainTail, h1, h2, h3, h4]

/-- Witness for C7 at concrete inputs: a plan missing the required
"VER_b" is fatal; a complete SPI plan (EKS absent) is laid out by the
template, with the BCT entry appearing three times and nothing left
over; a zero-length ordered list aborts the orchestrator. -/
theorem t210_template_order_witness :
    order_entries_t210 true [⟨"PT", none, "", 0, 1⟩] = none ∧
    order_entries_t210 true
      [⟨"VER_b", none, "", 0, 1⟩, ⟨"BCT", none, "", 0, 1⟩, ⟨"NVC_R", none, "", 0, 1⟩,
       ⟨"PT", none, "", 0, 1⟩, ⟨"TBC", none, "", 0, 1⟩, ⟨"RP1", none, "", 0, 1⟩,
       ⟨"EBT", none, "", 0, 1⟩, ⟨"WB0", none, "", 0, 1⟩, ⟨"BPF", none, "", 0, 1⟩,
       ⟨"DTB", none, "", 0, 1⟩, ⟨"TOS", none, "", 0, 1⟩, ⟨"LNX", none, "", 0, 1⟩,
       ⟨"NVC", none, "", 0, 1⟩, ⟨"VER", none, "", 0, 1⟩] =
      some [⟨"VER_b", none, "", 0, 1⟩, ⟨"BCT", none, "", 0, 1⟩, ⟨"NVC_R", none, "", 0, 1⟩,
            ⟨"BCT", none, "", 0, 1⟩, ⟨"BCT", none, "", 0, 1⟩,
            ⟨"PT", none, "", 0, 1⟩, ⟨"TBC", none, "", 0, 1⟩, ⟨"RP1", none, "", 0, 1⟩,
            ⟨"EBT", none, "", 0, 1⟩, ⟨"WB0", none, "", 0, 1⟩, ⟨"BPF", none, "", 0, 1⟩,
            ⟨"DTB", none, "", 0, 1⟩, ⟨"TOS", none, "", 0, 1⟩, ⟨"LNX", none, "", 0, 1⟩,
            ⟨"NVC", none, "", 0, 1⟩, ⟨"VER", none, "", 0, 1⟩] ∧
    mainTail ⟨true, true, false, 0, 2, false, false, 0, [], [], false, false, false,
              true, true⟩ = (1, 0) :=
  ⟨t210_template_order.1 true [⟨"PT", none, "", 0, 1⟩] "VER_b" (by decide) (by decide)
     (by decide),
   (t210_template_order.2.1 true
     [⟨"VER_b", none, "", 0, 1⟩, ⟨"BCT", none, "", 0, 1⟩, ⟨"NVC_R", none, "", 0, 1⟩,
      ⟨"PT", none, "", 0, 1⟩, ⟨"TBC", none, "", 0, 1⟩, ⟨"RP1", none, "", 0, 1⟩,
      ⟨"EBT", none, "", 0, 1⟩, ⟨"WB0", none, "", 0, 1⟩, ⟨"BPF", none, "", 0, 1⟩,
      ⟨"DTB", none, "", 0, 1⟩, ⟨"TOS", none, "", 0, 1⟩, ⟨"LNX", none, "", 0, 1⟩,
      ⟨"NVC", none, "", 0, 1⟩, ⟨"VER", none, "", 0, 1⟩] (by decide) (by decide)).trans
     (by decide),
   t210_template_order.2.2 ⟨true, true, false, 0, 2, false, false, 0, [], [], false, false,
     false, true, true⟩ (by decide) (by decide) (by decide) (by decide)⟩

/-! ## C2: T186/T194 ordering -/

theorem orderStep_others (s : OrderState) (e : UpdateEntry) :
    (orderStep s e).others = s.others ++ (if isSpecial e.partname then [] else [e]) := by
  unfold orderStep isSpecial
  split_ifs <;> simp_all

theorem orderStep_mb1 (s : OrderState) (e : UpdateEntry) :
    (orderStep s e).mb1 = if e.partname = "mb1" then some e else s.mb1 := by
  unfold orderStep
  split_ifs <;> simp_all

theorem orderStep_mb1b (s : OrderState) (e : UpdateEntry) :
    (orderStep s e).mb1b = if e.partname = "mb1_b" then some e else s.mb1b := by
  unfold orderStep
  split_ifs <;> simp_all

theorem orderStep_mb2 (s : OrderState) (e : UpdateEntry) :
    (orderStep s e).mb2 = if e.partname = "mb2" then some e else s.mb2 := by
  unfold orderStep
  split_ifs <;> simp_all

theorem orderStep_mb2b (s : OrderState) (e : UpdateEntry) :
    (orderStep s e).mb2b = if e.partname = "mb2_b" then some e else s.mb2b := by
  unfold orderStep
  split_ifs <;> simp_all

theorem orderStep_bcts (s : OrderState) (e : UpdateEntry) :
    (orderStep s e).bcts =
      (if e.partname = "BCT" then
        (if s.bcts.length < 3 then s.bcts ++ [e] else s.bcts) else s.bcts) := by
  unfold orderStep
  split_ifs <;> simp_all

theorem orderFold_others (l : List UpdateEntry) :
    ∀ s : OrderState, (l.foldl orderStep s).others =
      s.others ++ l.filter (fun e => !isSpecial e.partname) := by
  induction l with
  | nil => intro s; simp
  | cons e t ih =>
    intro s
    rw [List.foldl_cons, ih, orderStep_others, List.filter_cons]
    by_cases h : isSpecial e.partname <;> simp [h]

theorem orderFold_mb1 (l : List UpdateEntry) :
    ∀ s : OrderState, (l.foldl orderStep s).mb1 =
      lastSaved s.mb1 (l.filter (fun e => e.partname = "mb1")) := by
  induction l with
  | nil => intro s; simp [lastSaved]
  | cons e t ih =>
    intro s
    rw [List.foldl_cons, ih, orderStep_mb1, List.filter_cons]
    by_cases h : e.partname = "mb1" <;> simp [h, lastSaved]

theorem orderFold_mb1b (l : List UpdateEntry) :
    ∀ s : OrderState, (l.foldl orderStep s).mb1b =
      lastSaved s.mb1b (l.filter (fun e => e.partname = "mb1_b")) := by
  induction l with
  | nil => intro s; simp [lastSaved]
  | cons e t ih =>
    intro s
    rw [List.foldl_cons, ih, orderStep_mb1b, List.filter_cons]
    by_cases h : e.partname = "mb1_b" <;> simp [h, lastSaved]

theorem orderFold_mb2 (l : List UpdateEntry) :
    ∀ s : OrderState, (l.foldl orderStep s).mb2 =
      lastSaved s.mb2 (l.filter (fun e => e.partname = "mb2")) := by
  induction l with
  | nil => intro s; simp [lastSaved]
  | cons e t ih =>
    intro s
    rw [List.foldl_cons, ih, orderStep_mb2, List.filter_cons]
    by_cases h : e.partname = "mb2" <;> simp [h, lastSaved]

theorem orderFold_mb2b (l : List UpdateEntry) :
    ∀ s : OrderState, (l.foldl orderStep s).mb2b =
      lastSaved s.mb2b (l.filter (fun e => e.partname = "mb2_b")) := by
  induction l with
  | nil => intro s; simp [lastSaved]
  | cons e t ih =>
    intro s
    rw [List.foldl_cons, ih, orderStep_mb2b, List.filter_cons]
    by_cases h : e.partname = "mb2_b" <;> simp [h, lastSaved]

theorem orderFold_bcts (l : List UpdateEntry) :
    ∀ s : OrderState, s.bcts.length ≤ 3 →
      (l.foldl orderStep s).bcts =
        (s.bcts ++ l.filter (fun e => e.partname = "BCT")).take 3 := by
  induction l with
  | nil =>
    intro s hs
    rw [List.filter_nil, List.append_nil, List.foldl_nil, List.take_of_length_le hs]
  | cons e t ih =>
    intro s hs
    rw [List.foldl_cons, List.filter_cons]
    have hstep : (orderStep s e).bcts.length ≤ 3 := by
      rw [orderStep_bcts]
      split_ifs <;> simp_all <;> omega
    rw [ih (orderStep s e) hstep, orderStep_bcts]
    by_cases h : e.partname = "BCT"
    · by_cases hlt : s.bcts.length < 3
      · simp [h, hlt]
      · have h3 : s.bcts.length = 3 := by omega
        rw [if_pos h, if_neg hlt, List.take_append_of_le_length (by omega),
            List.take_append_of_le_length (by omega)]
    · simp [h]

theorem lastSaved_toList_of_short (l : List UpdateEntry) (h : l.length ≤ 1) :
    (lastSaved none l).toList = l := by
  cases l with
  | nil => rfl
  | cons x t =>
    cases t with
    | nil => rfl
    | cons y u => simp at h

theorem count_filter_neg {α : Type} [DecidableEq α] {a : α} {p : α → Bool} {l : List α}
    (h : p a = false) : (l.filter p).count a = 0 := by
  rw [List.count_eq_zero]
  intro hmem
  rw [List.mem_filter, h] at hmem
  exact Bool.noConfusion hmem.2

theorem getElemQ_right (cond : UpdateEntry → Prop) {P Q : List UpdateEntry}
    (hQ : ∀ x ∈ Q, ¬ cond x) {i : Nat} {x : UpdateEntry}
    (hx : (P ++ Q)[i]? = some x) (hc : cond x) : i < P.length := by
  by_contra hge
  push_neg at hge
  rw [List.getElem?_append_right hge] at hx
  exact hQ x (List.getElem?_mem hx) hc

theorem getElemQ_left (cond : UpdateEntry → Prop) {P Q : List UpdateEntry}
    (hP : ∀ x ∈ P, ¬ cond x) {i : Nat} {x : UpdateEntry}
    (hx : (P ++ Q)[i]? = some x) (hc : cond x) : P.length ≤ i := by
  by_contra hlt
  push_neg at hlt
  rw [List.getElem?_append, if_pos hlt] at hx
  exact hP x (List.getElem?_mem hx) hc

/-- Claim C2: for T186/T194, on any list with at most three entries
named BCT and at most one entry each named mb1, mb1_b, mb2, mb2_b,
`order_entries` emits all other entries in input order, then mb2, then
mb2_b, then the BCT occurrences, then mb1, then mb1_b; the output is a
permutation of the input, and consequently every mb2/mb2_b index
precedes every BCT index, which precedes every mb1/mb1_b index. -/
theorem order_entries_spec (orig : List UpdateEntry)
    (hbct : (orig.filter (fun e => e.partname = "BCT")).length ≤ 3)
    (hm1 : (orig.filter (fun e => e.partname = "mb1")).length ≤ 1)
    (hm1b : (orig.filter (fun e => e.partname = "mb1_b")).length ≤ 1)
    (hm2 : (orig.filter (fun e => e.partname = "mb2")).length ≤ 1)
    (hm2b : (orig.filter (fun e => e.partname = "mb2_b")).length ≤ 1) :
    order_entries orig =
      orig.filter (fun e => !isSpecial e.partname) ++
      orig.filter (fun e => e.partname = "mb2") ++
      orig.filter (fun e => e.partname = "mb2_b") ++
      orig.filter (fun e => e.partname = "BCT") ++
      orig.filter (fun e => e.partname = "mb1") ++
      orig.filter (fun e => e.partname = "mb1_b") ∧
    (order_entries orig).Perm orig ∧
    (∀ (i j : Nat) (x y : UpdateEntry),
      (order_entries orig)[i]? = some x → (order_entries orig)[j]? = some y →
      x.partname = "mb2" ∨ x.partname = "mb2_b" → y.partname = "BCT" → i < j) ∧
    (∀ (j k : Nat) (y z : UpdateEntry),
      (order_entries orig)[j]? = some y → (order_entries orig)[k]? = some z →
      y.partname = "BCT" → z.partname = "mb1" ∨ z.partname = "mb1_b" → j < k) := by
  have hchar : order_entries orig =
      orig.filter (fun e => !isSpecial e.partname) ++
      orig.filter (fun e => e.partname = "mb2") ++
      orig.filter (fun e => e.partname = "mb2_b") ++
      orig.filter (fun e => e.partname = "BCT") ++
      orig.filter (fun e => e.partname = "mb1") ++
      orig.filter (fun e => e.partname = "mb1_b") := by
    show (orig.foldl orderStep ⟨none, none, none, none, [], []⟩).others ++
        (orig.foldl orderStep ⟨none, none, none, none, [], []⟩).mb2.toList ++
        (orig.foldl orderStep ⟨none, none, none, none, [], []⟩).mb2b.toList ++
        (orig.foldl orderStep ⟨none, none, none, none, [], []⟩).bcts ++
        (orig.foldl orderStep ⟨none, none, none, none, [], []⟩).mb1.toList ++
        (orig.foldl orderStep ⟨none, none, none, none, [], []⟩).mb1b.toList = _
    rw [orderFold_others, orderFold_mb1, orderFold_mb1b, orderFold_mb2, orderFold_mb2b,
        orderFold_bcts _ _ (by simp), lastSaved_toList_of_short _ hm1,
        lastSaved_toList_of_short _ hm1b, lastSaved_toList_of_short _ hm2,
        lastSaved_toList_of_short _ hm2b]
    rw [List.nil_append, List.nil_append, List.take_of_length_le hbct]
  have hperm : (order_entries orig).Perm orig := by
    rw [hchar, List.perm_iff_count]
    intro a
    simp only [List.count_append]
    by_cases hA : a.partname = "mb1"
    · rw [count_filter_neg (by simp [isSpecial, hA]), count_filter_neg (by simp [hA]),
          count_filter_neg (by simp [hA]), count_filter_neg (by simp [hA]),
          List.count_filter (by simp [hA]), count_filter_neg (by simp [hA])]
      omega
    · by_cases hB : a.partname = "mb1_b"
      · rw [count_filter_neg (by simp [isSpecial, hB]), count_filter_neg (by simp [hB]),
            count_filter_neg (by simp [hB]), count_filter_neg (by simp [hB]),
            count_filter_neg (by simp [hB]), List.count_filter (by simp [hB])]
        omega
      · by_cases hC : a.partname = "mb2"
        · rw [count_filter_neg (by simp [isSpecial, hC]), List.count_filter (by simp [hC]),
              count_filter_neg (by simp [hC]), count_filter_neg (by simp [hC]),
              count_filter_neg (by simp [hC]), count_filter_neg (by simp [hC])]
          omega
        · by_cases hD : a.partname = "mb2_b"
          · rw [count_filter_neg (by simp [isSpecial, hD]), count_filter_neg (by simp [hD]),
                List.count_filter (by simp [hD]), count_filter_neg (by simp [hD]),
                count_filter_neg (by simp [hD]), count_filter_neg (by simp [hD])]
            omega
          · by_cases hE : a.partname = "BCT"
            · rw [count_filter_neg (by simp [isSpecial, hE]), count_filter_neg (by simp [hE]),
                  count_filter_neg (by simp [hE]), List.count_filter (by simp [hE]),
                  count_filter_neg (by simp [hE]), count_filter_neg (by simp [hE])]
              omega
            · rw [List.count_filter (by simp [isSpecial, hA, hB, hC, hD, hE]),
                  count_filter_neg (by simp [hC]), count_filter_neg (by simp [hD]),
                  count_filter_neg (by simp [hE]), count_filter_neg (by simp [hA]),
                  count_filter_neg (by simp [hB])]
              omega
  have hsplit1 : order_entries orig =
      (orig.filter (fun e => !isSpecial e.partname) ++
       orig.filter (fun e => e.partname = "mb2") ++
       orig.filter (fun e => e.partname = "mb2_b")) ++
      (orig.filter (fun e => e.partname = "BCT") ++
       orig.filter (fun e => e.partname = "mb1") ++
       orig.filter (fun e => e.partname = "mb1_b")) := by
    rw [hchar]
    simp [List.append_assoc]
  have hsplit2 : order_entries orig =
      (orig.filter (fun e => !isSpecial e.partname) ++
       orig.filter (fun e => e.partname = "mb2") ++
       orig.filter (fun e => e.partname = "mb2_b") ++
       orig.filter (fun e => e.partname = "BCT")) ++
      (orig.filter (fun e => e.partname = "mb1") ++
       orig.filter (fun e => e.partname = "mb1_b")) := by
    rw [hchar]
    simp [List.append_assoc]
  refine ⟨hchar, hperm, ?_, ?_⟩
  · intro i j x y hix hjy hx hy
    rw [hsplit1] at hix hjy
    have hi : i < (orig.filter (fun e => !isSpecial e.partname) ++
        orig.filter (fun e => e.partname = "mb2") ++
        orig.filter (fun e => e.partname = "mb2_b")).length := by
      refine getElemQ_right (fun u => u.partname = "mb2" ∨ u.partname = "mb2_b") ?_ hix hx
      intro z hz hcz
      rcases List.mem_append.mp hz with hz2 | hz2
      · rcases List.mem_append.mp hz2 with hz3 | hz3
        · have := (List.mem_filter.mp hz3).2
          rcases hcz with h | h <;> simp [h] at this
        · have := (List.mem_filter.mp hz3).2
          simp only [decide_eq_true_eq] at this
          rcases hcz with h | h <;> rw [h] at this <;> simp at this
      · have := (List.mem_filter.mp hz2).2
        simp only [decide_eq_true_eq] at this
        rcases hcz with h | h <;> rw [h] at this <;> simp at this
    have hj : (orig.filter (fun e => !isSpecial e.partname) ++
        orig.filter (fun e => e.partname = "mb2") ++
        orig.filter (fun e => e.partname = "mb2_b")).length ≤ j := by
      refine getElemQ_left (fun u => u.partname = "BCT") ?_ hjy hy
      intro z hz hcz
      rcases List.mem_append.mp hz with hz2 | hz2
      · rcases List.mem_append.mp hz2 with hz3 | hz3
        · have := (List.mem_filter.mp hz3).2
          simp [isSpecial, hcz] at this
        · have := (List.mem_filter.mp hz3).2
          simp only [decide_eq_true_eq] at this
          rw [hcz] at this
          simp at this
      · have := (List.mem_filter.mp hz2).2
        simp only [decide_eq_true_eq] at this
        rw [hcz] at this
        simp at this
    omega
  · intro j k y z hjy hkz hy hz
    rw [hsplit2] at hjy hkz
    have hj : j < (orig.filter (fun e => !isSpecial e.partname) ++
        orig.filter (fun e => e.partname = "mb2") ++
        orig.filter (fun e => e.partname = "mb2_b") ++
        orig.filter (fun e => e.partname = "BCT")).length := by
      refine getElemQ_right (fun u => u.partname = "BCT") ?_ hjy hy
      intro w hw hcw
      rcases List.mem_append.mp hw with hw2 | hw2
      · have := (List.mem_filter.mp hw2).2
        simp only [decide_eq_true_eq] at this
        rw [hcw] at this
        simp at this
      · have := (List.mem_filter.mp hw2).2
        simp only [decide_eq_true_eq] at this
        rw [hcw] at this
        simp at this
    have hk : (orig.filter (fun e => !isSpecial e.partname) ++
        orig.filter (fun e => e.partname = "mb2") ++
        orig.filter (fun e => e.partname = "mb2_b") ++
        orig.filter (fun e => e.partname = "BCT")).length ≤ k := by
      refine getElemQ_left (fun u => u.partname = "mb1" ∨ u.partname = "mb1_b") ?_ hkz hz
      intro w hw hcw
      rcases List.mem_append.mp hw with hw2 | hw2
      · rcases List.mem_append.mp hw2 with hw3 | hw3
        · rcases List.mem_append.mp hw3 with hw4 | hw4
          · have := (List.mem_filter.mp hw4).2
            rcases hcw with h | h <;> simp [isSpecial, h] at this
          · have := (List.mem_filter.mp hw4).2
            simp only [decide_eq_true_eq] at this
            rcases hcw with h | h <;> rw [h] at this <;> simp at this
        · have := (List.mem_filter.mp hw3).2
          simp only [decide_eq_true_eq] at this
          rcases hcw with h | h <;> rw [h] at this <;> simp at this
      · have := (List.mem_filter.mp hw2).2
        simp only [decide_eq_true_eq] at this
        rcases hcw with h | h <;> rw [h] at this <;> simp at this
    omega

/-- Witness for C2 at a concrete eight-entry list with two BCT entries. -/
theorem order_entries_spec_witness :
    order_entries
      [⟨"kernel", none, "", 0, 1⟩, ⟨"mb1", none, "", 1, 1⟩, ⟨"BCT", none, "", 2, 1⟩,
       ⟨"mb2", none, "", 3, 1⟩, ⟨"mb1_b", none, "", 4, 1⟩, ⟨"cboot", none, "", 5, 1⟩,
       ⟨"BCT", none, "", 6, 1⟩, ⟨"mb2_b", none, "", 7, 1⟩] =
      [⟨"kernel", none, "", 0, 1⟩, ⟨"cboot", none, "", 5, 1⟩, ⟨"mb2", none, "", 3, 1⟩,
       ⟨"mb2_b", none, "", 7, 1⟩, ⟨"BCT", none, "", 2, 1⟩, ⟨"BCT", none, "", 6, 1⟩,
       ⟨"mb1", none, "", 1, 1⟩, ⟨"mb1_b", none, "", 4, 1⟩] ∧
    (order_entries
      [⟨"kernel", none, "", 0, 1⟩, ⟨"mb1", none, "", 1, 1⟩, ⟨"BCT", none, "", 2, 1⟩,
       ⟨"mb2", none, "", 3, 1⟩, ⟨"mb1_b", none, "", 4, 1⟩, ⟨"cboot", none, "", 5, 1⟩,
       ⟨"BCT", none, "", 6, 1⟩, ⟨"mb2_b", none, "", 7, 1⟩]).Perm
      [⟨"kernel", none, "", 0, 1⟩, ⟨"mb1", none, "", 1, 1⟩, ⟨"BCT", none, "", 2, 1⟩,
       ⟨"mb2", none, "", 3, 1⟩, ⟨"mb1_b", none, "", 4, 1⟩, ⟨"cboot", none, "", 5, 1⟩,
       ⟨"BCT", none, "", 6, 1⟩, ⟨"mb2_b", none, "", 7, 1⟩] :=
  ⟨((order_entries_spec
      [⟨"kernel", none, "", 0, 1⟩, ⟨"mb1", none, "", 1, 1⟩, ⟨"BCT", none, "", 2, 1⟩,
       ⟨"mb2", none, "", 3, 1⟩, ⟨"mb1_b", none, "", 4, 1⟩, ⟨"cboot", none, "", 5, 1⟩,
       ⟨"BCT", none, "", 6, 1⟩, ⟨"mb2_b", none, "", 7, 1⟩]
      (by decide) (by decide) (by decide) (by decide) (by decide)).1).trans (by decide),
   (order_entries_spec
      [⟨"kernel", none, "", 0, 1⟩, ⟨"mb1", none, "", 1, 1⟩, ⟨"BCT", none, "", 2, 1⟩,
       ⟨"mb2", none, "", 3, 1⟩, ⟨"mb1_b", none, "", 4, 1⟩, ⟨"cboot", none, "", 5, 1⟩,
       ⟨"BCT", none, "", 6, 1⟩, ⟨"mb2_b", none, "", 7, 1⟩]
      (by decide) (by decide) (by decide) (by decide) (by decide)).2.1⟩

/-! ## C1: BCT write multiplicity -/

theorem descIntsAux_mem (x lo : Int) :
    ∀ (fuel : Nat) (hi : Int), (hi + 1 - lo).toNat ≤ fuel →
      (x ∈ descIntsAux fuel hi lo ↔ lo ≤ x ∧ x ≤ hi) := by
  intro fuel
  induction fuel with
  | zero =>
    intro hi hle
    simp only [descIntsAux, List.not_mem_nil, false_iff]
    omega
  | succ n ih =>
    intro hi hle
    by_cases h : hi < lo
    · simp only [descIntsAux, if_pos h, List.not_mem_nil, false_iff]
      omega
    · simp only [descIntsAux, if_neg h, List.mem_cons, ih (hi - 1) (by omega)]
      omega

theorem mem_descInts (x hi lo : Int) : x ∈ descInts hi lo ↔ lo ≤ x ∧ x ≤ hi :=
  descIntsAux_mem x lo _ hi (le_refl _)

theorem bct_t210_sequence_spi (newbct : List Nat) (len : Nat) (part : GptEntry)
    (validOk : Bool) (c : Nat)
    (hceq : c = min ((part.last_lba - part.first_lba + 1) * 512 / blockSize true) 64)
    (hpage : len % pageSize true = 0)
    (hsize : len * bctCopies true ≤ blockSize true)
    (hpos : 0 < len) (hc1 : 1 ≤ c) :
    (bct_t210_sequence true none newbct len part validOk).map
        (fun p => (p.1.toFinset, p.2)) =
      some ((((Finset.range c).image (fun i : Nat => ((i * blockSize true : Nat) : Int))) ∪
        (if true then {(len : Int)} else ∅), [1, 0, -1])) := by
  have h1 : update_bct_t210 true true none newbct len part validOk (-1) =
      some ((descInts ((c : Int) - 1) ((c : Int) - 1)).flatMap
        (fun bctidx => [bctidx * (blockSize true : Int)] ++
          (if bctidx = 0 ∧ bctCopies true = 2
           then [bctidx * (blockSize true : Int) + (len : Int)] else [])), 1) := by
    simp only [update_bct_t210]
    rw [if_neg (by simp), if_neg (by simp), if_neg (by omega), if_neg (by omega)]
    rw [← hceq]
    simp [bctMatchesAtI, bctMatchesAt]
  have h2 : update_bct_t210 true true none newbct len part validOk 1 =
      some ((descInts ((c : Int) - 2) 1).flatMap
        (fun bctidx => [bctidx * (blockSize true : Int)] ++
          (if bctidx = 0 ∧ bctCopies true = 2
           then [bctidx * (blockSize true : Int) + (len : Int)] else [])), 0) := by
    simp only [update_bct_t210]
    rw [if_neg (by simp), if_neg (by simp), if_neg (by omega), if_neg (by omega)]
    rw [← hceq]
    simp [bctMatchesAtI, bctMatchesAt]
  have h3 : update_bct_t210 true true none newbct len part validOk 0 =
      some ((descInts 0 0).flatMap
        (fun bctidx => [bctidx * (blockSize true : Int)] ++
          (if bctidx = 0 ∧ bctCopies true = 2
           then [bctidx * (blockSize true : Int) + (len : Int)] else [])), -1) := by
    simp only [update_bct_t210]
    rw [if_neg (by simp), if_neg (by simp), if_neg (by omega), if_neg (by omega)]
    simp [bctMatchesAtI, bctMatchesAt]
  have hseq : bct_t210_sequence true none newbct len part validOk =
      some (((descInts ((c : Int) - 1) ((c : Int) - 1)).flatMap
        (fun bctidx => [bctidx * (blockSize true : Int)] ++
          (if bctidx = 0 ∧ bctCopies true = 2
           then [bctidx * (blockSize true : Int) + (len : Int)] else [])) ++
        (descInts ((c : Int) - 2) 1).flatMap
        (fun bctidx => [bctidx * (blockSize true : Int)] ++
          (if bctidx = 0 ∧ bctCopies true = 2
           then [bctidx * (blockSize true : Int) + (len : Int)] else [])) ++
        (descInts 0 0).flatMap
        (fun bctidx => [bctidx * (blockSize true : Int)] ++
          (if bctidx = 0 ∧ bctCopies true = 2
           then [bctidx * (blockSize true : Int) + (len : Int)] else []))), [1, 0, -1]) := by
    unfold bct_t210_sequence
    simp only [h1, h2, h3]
  rw [hseq]
  simp only [Option.map_some']
  simp only [blockSize, pageSize, bctCopies, if_true] at hceq hpage hsize
  refine congrArg some (Prod.ext ?_ rfl)
  ext o
  rw [List.mem_toFinset]
  simp only [List.mem_append, List.mem_flatMap, mem_descInts, List.mem_singleton,
    List.mem_ite_nil_right, blockSize, bctCopies, if_true, Finset.mem_union,
    Finset.mem_image, Finset.mem_range, Finset.mem_singleton]
  norm_num
  constructor
  · rintro ((⟨a, ⟨ha1, ha2⟩, ho | ⟨haz, ho⟩⟩ | ⟨a, ⟨ha1, ha2⟩, ho | ⟨haz, ho⟩⟩) |
      ⟨a, ⟨ha1, ha2⟩, ho | ⟨haz, ho⟩⟩)
    · exact Or.inl ⟨a.toNat, by omega, by omega⟩
    · exact Or.inr (by omega)
    · exact Or.inl ⟨a.toNat, by omega, by omega⟩
    · exact Or.inr (by omega)
    · exact Or.inl ⟨a.toNat, by omega, by omega⟩
    · exact Or.inr (by omega)
  · rintro (⟨a, ha, ho⟩ | ho)
    · by_cases ha0 : a = 0
      · exact Or.inr ⟨0, by omega, Or.inl (by omega)⟩
      · by_cases hac : a = c - 1
        · exact Or.inl (Or.inl ⟨(c : Int) - 1, ⟨by omega, by omega⟩, Or.inl (by omega)⟩)
        · exact Or.inl (Or.inr ⟨(a : Int), ⟨by omega, by omega⟩, Or.inl (by omega)⟩)
    · exact Or.inr ⟨0, by omega, Or.inr ⟨rfl, by omega⟩⟩

theorem bct_t210_sequence_emmc (newbct : List Nat) (len : Nat) (part : GptEntry)
    (validOk : Bool) (c : Nat)
    (hceq : c = min ((part.last_lba - part.first_lba + 1) * 512 / blockSize false) 64)
    (hpage : len % pageSize false = 0)
    (hsize : len * bctCopies false ≤ blockSize false)
    (hpos : 0 < len) (hc1 : 1 ≤ c) :
    (bct_t210_sequence false none newbct len part validOk).map
        (fun p => (p.1.toFinset, p.2)) =
      some ((((Finset.range c).image (fun i : Nat => ((i * blockSize false : Nat) : Int))) ∪
        (if false then {(len : Int)} else ∅), [1, 0, -1])) := by
  have h1 : update_bct_t210 false true none newbct len part validOk (-1) =
      some ((descInts ((c : Int) - 1) ((c : Int) - 1)).flatMap
        (fun bctidx => [bctidx * (blockSize false : Int)] ++
          (if bctidx = 0 ∧ bctCopies false = 2
           then [bctidx * (blockSize false : Int) + (len : Int)] else [])), 1) := by
    simp only [update_bct_t210]
    rw [if_neg (by simp), if_neg (by simp), if_neg (by omega), if_neg (by omega)]
    rw [← hceq]
    simp [bctMatchesAtI, bctMatchesAt]
  have h2 : update_bct_t210 false true none newbct len part validOk 1 =
      some ((descInts ((c : Int) - 2) 1).flatMap
        (fun bctidx => [bctidx * (blockSize false : Int)] ++
          (if bctidx = 0 ∧ bctCopies false = 2
           then [bctidx * (blockSize false : Int) + (len : Int)] else [])), 0) := by
    simp only [update_bct_t210]
    rw [if_neg (by simp), if_neg (by simp), if_neg (by omega), if_neg (by omega)]
    rw [← hceq]
    simp [bctMatchesAtI, bctMatchesAt]
  have h3 : update_bct_t210 false true none newbct len part validOk 0 =
      some ((descInts 0 0).flatMap
        (fun bctidx => [bctidx * (blockSize false : Int)] ++
          (if bctidx = 0 ∧ bctCopies false = 2
           then [bctidx * (blockSize false : Int) + (len : Int)] else [])), -1) := by
    simp only [update_bct_t210]
    rw [if_neg (by simp), if_neg (by simp), if_neg (by omega), if_neg (by omega)]
    simp [bctMatchesAtI, bctMatchesAt]
  have hseq : bct_t210_sequence false none newbct len part validOk =
      some (((descInts ((c : Int) - 1) ((c : Int) - 1)).flatMap
        (fun bctidx => [bctidx * (blockSize false : Int)] ++
          (if bctidx = 0 ∧ bctCopies false = 2
           then [bctidx * (blockSize false : Int) + (len : Int)] else [])) ++
        (descInts ((c : Int) - 2) 1).flatMap
        (fun bctidx => [bctidx * (blockSize false : Int)] ++
          (if bctidx = 0 ∧ bctCopies false = 2
           then [bctidx * (blockSize false : Int) + (len : Int)] else [])) ++
        (descInts 0 0).flatMap
        (fun bctidx => [bctidx * (blockSize false : Int)] ++
          (if bctidx = 0 ∧ bctCopies false = 2
           then [bctidx * (blockSize false : Int) + (len : Int)] else []))), [1, 0, -1]) := by
    unfold bct_t210_sequence
    simp only [h1, h2, h3]
  rw [hseq]
  simp only [Option.map_some']
  simp only [blockSize, pageSize, bctCopies] at hceq hpage hsize
  norm_num at hceq hpage hsize
  refine congrArg some (Prod.ext ?_ rfl)
  ext o
  rw [List.mem_toFinset]
  simp only [List.mem_append, List.mem_flatMap, mem_descInts, List.mem_singleton,
    List.mem_ite_nil_right, blockSize, bctCopies, Finset.mem_union,
    Finset.mem_image, Finset.mem_range, Finset.mem_singleton]
  norm_num
  constructor
  · rintro ((⟨a, ⟨ha1, ha2⟩, ho⟩ | ⟨a, ⟨ha1, ha2⟩, ho⟩) | ⟨a, ⟨ha1, ha2⟩, ho⟩)
    · exact ⟨a.toNat, by omega, by omega⟩
    · exact ⟨a.toNat, by omega, by omega⟩
    · exact ⟨a.toNat, by omega, by omega⟩
  · rintro ⟨a, ha, ho⟩
    · by_cases ha0 : a = 0
      · exact Or.inr ⟨0, by omega, by omega⟩
      · by_cases hac : a = c - 1
        · exact Or.inl (Or.inl ⟨(c : Int) - 1, ⟨by omega, by omega⟩, by omega⟩)
        · exact Or.inl (Or.inr ⟨(a : Int), ⟨by omega, by omega⟩, by omega⟩)

theorem bct_t210_cover_card_spi (len : Nat) (c : Nat) (hpos : 0 < len)
    (hsize : len * 2 ≤ 32768) :
    ((((Finset.range c).image (fun i : Nat => ((i * blockSize true : Nat) : Int))) ∪
      (if true then {(len : Int)} else ∅)).card = c + (if true then 1 else 0)) := by
  have hinj : Function.Injective (fun i : Nat => ((i * blockSize true : Nat) : Int)) := by
    intro a1 a2 h
    simp only [Nat.cast_inj, blockSize, if_true] at h
    omega
  have hnot : (len : Int) ∉ (Finset.range c).image
      (fun i : Nat => ((i * blockSize true : Nat) : Int)) := by
    rw [Finset.mem_image]
    rintro ⟨n, hn, heq⟩
    simp only [blockSize, if_true] at heq
    omega
  rw [if_pos rfl, if_pos rfl, Finset.card_union_of_disjoint
      (Finset.disjoint_singleton_right.mpr hnot),
    Finset.card_image_of_injective _ hinj, Finset.card_range, Finset.card_singleton]

theorem bct_t210_cover_card_emmc (len : Nat) (c : Nat) :
    ((((Finset.range c).image (fun i : Nat => ((i * blockSize false : Nat) : Int))) ∪
      (if false then {(len : Int)} else ∅)).card = c + (if false then 1 else 0)) := by
  have hinj : Function.Injective (fun i : Nat => ((i * blockSize false : Nat) : Int)) := by
    intro a1 a2 h
    simp [blockSize] at h
    omega
  rw [if_neg (by simp), if_neg (by simp), Finset.union_empty,
    Finset.card_image_of_injective _ hinj, Finset.card_range]
  omega

/-- Claim C1: on T186/T194, `update_bct` performs for a BCT entry the
writes at partition-relative offsets `bctSlotSize`, `blockSize`, `0`, in
that order, each skipped exactly when the current content at that offset
equals the new payload (so exactly three writes when initializing); on
T210, the three successive `update_bct_t210` invocations for the same
entry (with `which` threading -1, 1, 0) write exactly the offsets
`i * blockSize` for `i < copies_used`, plus the duplicate at offset
`payload_length` on SPI: `copies_used` distinct offsets on eMMC and
`copies_used + 1` on SPI. -/
theorem bct_write_multiplicity :
    (∀ (spiboot : Bool) (curbct : Option (List Nat)) (newbct : List Nat) (len : Nat)
       (validOk : Bool), curbct = none ∨ validOk = true →
      update_bct spiboot false curbct newbct len validOk =
        some (([bctSlotSize spiboot len, blockSize spiboot, 0]).filter
          (fun o => !bctMatchesAt curbct newbct len o))) ∧
    (∀ (spiboot : Bool) (newbct : List Nat) (len : Nat) (validOk : Bool),
      update_bct spiboot false none newbct len validOk =
        some [bctSlotSize spiboot len, blockSize spiboot, 0]) ∧
    (∀ (spiboot : Bool) (newbct : List Nat) (len : Nat) (part : GptEntry)
       (validOk : Bool) (c : Nat),
      c = min ((part.last_lba - part.first_lba + 1) * 512 / blockSize spiboot) 64 →
      len % pageSize spiboot = 0 →
      len * bctCopies spiboot ≤ blockSize spiboot →
      0 < len → 1 ≤ c →
      (bct_t210_sequence spiboot none newbct len part validOk).map
          (fun p => (p.1.toFinset, p.2)) =
        some ((((Finset.range c).image
            (fun i : Nat => ((i * blockSize spiboot : Nat) : Int))) ∪
          (if spiboot then {(len : Int)} else ∅), [1, 0, -1])) ∧
      ((((Finset.range c).image (fun i : Nat => ((i * blockSize spiboot : Nat) : Int))) ∪
          (if spiboot then {(len : Int)} else ∅)).card =
        c + (if spiboot then 1 else 0))) := by
  have hA : ∀ (spiboot : Bool) (curbct : Option (List Nat)) (newbct : List Nat) (len : Nat)
      (validOk : Bool), curbct = none ∨ validOk = true →
      update_bct spiboot false curbct newbct len validOk =
        some (([bctSlotSize spiboot len, blockSize spiboot, 0]).filter
          (fun o => !bctMatchesAt curbct newbct len o)) := by
    intro spiboot curbct newbct len validOk h
    have hg : ¬((curbct.isSome && !validOk) = true) := by
      rcases h with h | h <;> simp [h]
    simp only [update_bct]
    rw [if_neg (by simp), if_neg hg]
    have hr : List.range 3 = [0, 1, 2] := rfl
    rw [hr]
    simp only [List.filterMap_cons, List.filterMap_nil, List.filter_cons, List.filter_nil]
    cases hm0 : bctMatchesAt curbct newbct len (bctSlotSize spiboot len) <;>
      cases hm1 : bctMatchesAt curbct newbct len (blockSize spiboot) <;>
      cases hm2 : bctMatchesAt curbct newbct len 0 <;>
      simp [hm0, hm1, hm2]
  refine ⟨hA, ?_, ?_⟩
  · intro spiboot newbct len validOk
    rw [hA spiboot none newbct len validOk (Or.inl rfl)]
    simp [bctMatchesAt]
  · intro spiboot newbct len part validOk c hceq hpage hsize hpos hc1
    cases spiboot with
    | false =>
      exact ⟨bct_t210_sequence_emmc newbct len part validOk c hceq hpage hsize hpos hc1,
        bct_t210_cover_card_emmc len c⟩
    | true =>
      exact ⟨bct_t210_sequence_spi newbct len part validOk c hceq hpage hsize hpos hc1,
        bct_t210_cover_card_spi len c hpos (by simpa [bctCopies, blockSize] using hsize)⟩

/-- Witness for C1 at concrete inputs: a one-byte payload against a
current BCT matching only at offset 0 (T18x update), a 600-byte payload
when initializing (T18x), and a SPI T210 partition of three blocks with
a 2048-byte payload. -/
theorem bct_write_multiplicity_witness :
    update_bct false false (some [1, 2]) [1, 2] 1 true = some [512, 16384] ∧
    update_bct false false none [7] 600 true = some [1024, 16384, 0] ∧
    ((bct_t210_sequence true none [9] 2048 ⟨0, 191⟩ true).map
        (fun p => (p.1.toFinset, p.2)) =
      some ((((Finset.range 3).image (fun i : Nat => ((i * blockSize true : Nat) : Int))) ∪
        (if true then {(2048 : Int)} else ∅), [1, 0, -1])) ∧
     ((((Finset.range 3).image (fun i : Nat => ((i * blockSize true : Nat) : Int))) ∪
        (if true then {(2048 : Int)} else ∅)).card = 3 + (if true then 1 else 0))) :=
  ⟨(bct_write_multiplicity.1 false (some [1, 2]) [1, 2] 1 true (Or.inr rfl)).trans (by decide),
   (bct_write_multiplicity.2.1 false [7] 600 true).trans (by decide),
   bct_write_multiplicity.2.2 true [9] 2048 ⟨0, 191⟩ true 3 (by decide) (by decide)
     (by decide) (by decide) (by decide)⟩

theorem mem_append_bound {l L : List UpdateEntry} {n : Nat}
    (hL : ∀ x ∈ L, x.length = n) : ∀ e ∈ l ++ L, e ∈ l ∨ e.length = n := by
  intro e he
  rcases List.mem_append.mp he with h | h
  · exact Or.inl h
  · exact Or.inr (hL e h)

theorem mem_append_bound2 {l L1 L2 : List UpdateEntry} {n : Nat}
    (h1 : ∀ x ∈ L1, x.length = n) (h2 : ∀ x ∈ L2, x.length = n) :
    ∀ e ∈ l ++ L1 ++ L2, e ∈ l ∨ e.length = n := by
  intro e he
  rcases List.mem_append.mp he with h | h
  · rcases List.mem_append.mp h with h | h
    · exact Or.inl h
    · exact Or.inr (h1 e h)
  · exact Or.inr (h2 e h)

theorem planStep_cases (t210 spiboot initMode : Bool) (suffix : String)
    (st st2 : PlanState) (pe : BupEnumEntry) (r : ResolveInfo)
    (h : planStep t210 spiboot initMode suffix st (pe, r) = some st2) :
    (st.largest ≤ st2.largest ∧ pe.length ≤ st2.largest) ∧
    (∀ e ∈ st2.red, e ∈ st.red ∨ e.length = pe.length) ∧
    (∀ e ∈ st2.nonred, e ∈ st.nonred ∨ e.length = pe.length) ∧
    (∀ e ∈ st2.mb1_other.toList, e ∈ st.mb1_other.toList ∨ e.length = pe.length) := by
  cases hr : r.part with
  | none =>
    simp only [planStep, hr] at h
    split_ifs at h <;>
      first
        | exact Option.noConfusion h
        | (obtain rfl : _ = st2 := Option.some.inj h
           refine ⟨⟨?_, ?_⟩, ?_, ?_, ?_⟩ <;>
             first
               | (simp <;> omega)
               | omega
               | exact fun e he => Or.inl he
               | (refine mem_append_bound ?_
                  intro x hx
                  simp only [List.mem_cons, List.not_mem_nil, or_false,
                    List.mem_singleton, mkUpdent] at hx
                  first
                    | (rcases hx with rfl | rfl <;> first | rfl | simp [mkUpdent])
                    | (rcases hx with rfl
                       first | rfl | simp [mkUpdent]))
               | (refine mem_append_bound2 ?_ ?_ <;>
                  (intro x hx
                   simp only [List.mem_cons, List.not_mem_nil, or_false,
                     List.mem_singleton, mkUpdent] at hx
                   first
                     | (rcases hx with rfl | rfl <;> first | rfl | simp [mkUpdent])
                     | (rcases hx with rfl
                        first | rfl | simp [mkUpdent])))
               | (intro e he
                  simp only [Option.toList_some, List.mem_singleton] at he
                  subst he
                  right
                  first | rfl | simp [mkUpdent]))
  | some part =>
    simp only [planStep, hr] at h
    cases hb : r.part_b with
    | none =>
      simp only [hb] at h
      split_ifs at h <;>
        first
          | exact Option.noConfusion h
          | (obtain rfl : _ = st2 := Option.some.inj h
             refine ⟨⟨?_, ?_⟩, ?_, ?_, ?_⟩ <;>
               first
                 | (simp <;> omega)
                 | omega
                 | exact fun e he => Or.inl he
                 | (refine mem_append_bound ?_
                    intro x hx
                    simp only [List.mem_cons, List.not_mem_nil, or_false,
                      List.mem_singleton, mkUpdent] at hx
                    first
                      | (rcases hx with rfl | rfl <;> first | rfl | simp [mkUpdent])
                      | (rcases hx with rfl
                         first | rfl | simp [mkUpdent]))
                 | (refine mem_append_bound2 ?_ ?_ <;>
                    (intro x hx
                     simp only [List.mem_cons, List.not_mem_nil, or_false,
                       List.mem_singleton, mkUpdent] at hx
                     first
                       | (rcases hx with rfl | rfl <;> first | rfl | simp [mkUpdent])
                       | (rcases hx with rfl
                          first | rfl | simp [mkUpdent])))
                 | (intro e he
                    simp only [Option.toList_some, List.mem_singleton] at he
                    subst he
                    right
                    first | rfl | simp [mkUpdent]))
    | some pb =>
      simp only [hb] at h
      split_ifs at h <;>
        first
          | exact Option.noConfusion h
          | (obtain rfl : _ = st2 := Option.some.inj h
             refine ⟨⟨?_, ?_⟩, ?_, ?_, ?_⟩ <;>
               first
                 | (simp <;> omega)
                 | omega
                 | exact fun e he => Or.inl he
                 | (refine mem_append_bound ?_
                    intro x hx
                    simp only [List.mem_cons, List.not_mem_nil, or_false,
                      List.mem_singleton, mkUpdent] at hx
                    first
                      | (rcases hx with rfl | rfl <;> first | rfl | simp [mkUpdent])
                      | (rcases hx with rfl
                         first | rfl | simp [mkUpdent]))
                 | (refine mem_append_bound2 ?_ ?_ <;>
                    (intro x hx
                     simp only [List.mem_cons, List.not_mem_nil, or_false,
                       List.mem_singleton, mkUpdent] at hx
                     first
                       | (rcases hx with rfl | rfl <;> first | rfl | simp [mkUpdent])
                       | (rcases hx with rfl
                          first | rfl | simp [mkUpdent])))
                 | (intro e he
                    simp only [Option.toList_some, List.mem_singleton] at he
                    subst he
                    right
                    first | rfl | simp [mkUpdent]))


theorem foldl_bind_none (f : PlanState → (BupEnumEntry × ResolveInfo) → Option PlanState)
    (l : List (BupEnumEntry × ResolveInfo)) :
    l.foldl (fun acc x => acc.bind (fun st => f st x)) none = none := by
  induction l with
  | nil => rfl
  | cons x xs ih => simpa using ih

theorem planStep_inv (t210 spiboot initMode : Bool) (suffix : String)
    (st st2 : PlanState) (x : BupEnumEntry × ResolveInfo)
    (h : planStep t210 spiboot initMode suffix st x = some st2)
    (hst : planInv st) : planInv st2 := by
  obtain ⟨pe, r⟩ := x
  obtain ⟨⟨hle, hpe⟩, hred, hnon, hmb⟩ :=
    planStep_cases t210 spiboot initMode suffix st st2 pe r h
  refine ⟨?_, ?_, ?_⟩ <;> intro e he
  · rcases hred e he with h1 | h1
    · exact le_trans (hst.1 e h1) hle
    · omega
  · rcases hnon e he with h1 | h1
    · exact le_trans (hst.2.1 e h1) hle
    · omega
  · rcases hmb e he with h1 | h1
    · exact le_trans (hst.2.2 e h1) hle
    · omega

theorem planFold_inv (t210 spiboot initMode : Bool) (suffix : String) :
    ∀ (entries : List (BupEnumEntry × ResolveInfo)) (st st2 : PlanState),
    entries.foldl
      (fun acc x => acc.bind (fun s => planStep t210 spiboot initMode suffix s x))
      (some st) = some st2 →
    planInv st → planInv st2 := by
  intro entries
  induction entries with
  | nil =>
    intro st st2 h hst
    simp only [List.foldl_nil] at h
    obtain rfl := Option.some.inj h
    exact hst
  | cons x xs ih =>
    intro st st2 h hst
    simp only [List.foldl_cons, Option.some_bind] at h
    cases hy : planStep t210 spiboot initMode suffix st x with
    | none =>
      rw [hy, foldl_bind_none] at h
      exact Option.noConfusion h
    | some st1 =>
      rw [hy] at h
      exact ih st1 st2 h (planStep_inv t210 spiboot initMode suffix st st1 x hy hst)

theorem buildPlan_inv (t210 spiboot initMode : Bool) (suffix : String)
    (entries : List (BupEnumEntry × ResolveInfo)) (st : PlanState)
    (h : buildPlan t210 spiboot initMode suffix entries = some st) : planInv st := by
  unfold buildPlan at h
  cases hf : entries.foldl
      (fun acc x => acc.bind
        (fun s => planStep t210 spiboot initMode suffix s x))
      (some { red := [], nonred := [], mb1_other := none, largest := 0 }) with
  | none => rw [hf] at h; exact Option.noConfusion h
  | some st1 =>
    rw [hf] at h
    have h1 : planInv st1 :=
      planFold_inv t210 spiboot initMode suffix entries _ st1 hf
        ⟨fun e he => absurd he (List.not_mem_nil e),
         fun e he => absurd he (List.not_mem_nil e),
         fun e he => absurd he (List.not_mem_nil e)⟩
    cases t210 with
    | false =>
      simp only [Bool.false_eq_true, if_false] at h
      obtain rfl := Option.some.inj h
      exact h1
    | true =>
      simp only [if_true] at h
      by_cases hlen : 64 < st1.red.length + st1.nonred.length
      · rw [if_pos hlen] at h; exact Option.noConfusion h
      · rw [if_neg hlen] at h
        obtain rfl := Option.some.inj h
        refine ⟨?_, ?_, h1.2.2⟩
        · intro e he
          rcases List.mem_append.mp he with h2 | h2
          · exact h1.1 e h2
          · exact h1.2.1 e h2
        · intro e he
          exact absurd he (List.not_mem_nil e)

theorem readTotalsAux_le (readFn : Nat → Nat → Nat) (len bufsize : Nat)
    (hlen : len ≤ bufsize) (hread : ∀ k r, readFn k r ≤ r) :
    ∀ (fuel k total : Nat), total ≤ bufsize →
    ∀ t ∈ readTotalsAux readFn len bufsize fuel k total, t ≤ bufsize := by
  intro fuel
  induction fuel with
  | zero =>
    intro k total htot t ht
    simp only [readTotalsAux, List.mem_singleton] at ht
    omega
  | succ fuel ih =>
    intro k total htot t ht
    simp only [readTotalsAux] at ht
    by_cases hlt : total < len
    · rw [if_pos hlt] at ht
      rcases List.mem_cons.mp ht with rfl | ht2
      · exact htot
      · have hn := hread k (bufsize - total)
        exact ih (k + 1) (total + readFn k (bufsize - total)) (by omega) t ht2
    · rw [if_neg hlt] at ht
      simp only [List.mem_singleton] at ht
      omega

/-- Claim C10: every entry of the plan built by the enumeration loop has
payload length at most the final running maximum (the value assigned to
`contentbuf_size` before any entry is processed), including after the
T210 merge of the non-redundant list; and the content-read loops of
`process_entry` and `invalid_version_or_downgrade` keep `total` at most
the buffer size whenever the requested length is at most the buffer size
and each `bup_read` returns at most the count it was asked for, so the
per-iteration request `contentbuf_size - total` is never negative. -/
theorem contentbuf_size_bound :
    (∀ (t210 spiboot initMode : Bool) (suffix : String)
       (entries : List (BupEnumEntry × ResolveInfo)) (st : PlanState),
       buildPlan t210 spiboot initMode suffix entries = some st →
       ∀ e ∈ st.red ++ st.nonred ++ st.mb1_other.toList, e.length ≤ st.largest) ∧
    (∀ (readFn : Nat → Nat → Nat) (len bufsize fuel : Nat),
       len ≤ bufsize → (∀ k r, readFn k r ≤ r) →
       ∀ t ∈ readTotals readFn len bufsize fuel, t ≤ bufsize) := by
  constructor
  · intro t210 spiboot initMode suffix entries st h e he
    have hinv := buildPlan_inv t210 spiboot initMode suffix entries st h
    rcases List.mem_append.mp he with h1 | h1
    · rcases List.mem_append.mp h1 with h2 | h2
      · exact hinv.1 e h2
      · exact hinv.2.1 e h2
    · exact hinv.2.2 e h1
  · intro readFn len bufsize fuel hlen hread t ht
    exact readTotalsAux_le readFn len bufsize hlen hread fuel 0 0 (Nat.zero_le _) t ht

theorem contentbuf_size_bound_witness :
    (⟨"AAA", none, "/dev/disk/by-partlabel/AAA", 0, 7⟩ : UpdateEntry).length ≤ 7 ∧
    (8 : Nat) ≤ 8 :=
  ⟨contentbuf_size_bound.1 false false false ""
      [(⟨"AAA", 0, 7⟩, ⟨none, none, true, true, false⟩)]
      ⟨[⟨"AAA", none, "/dev/disk/by-partlabel/AAA", 0, 7⟩], [], none, 7⟩
      (by decide)
      ⟨"AAA", none, "/dev/disk/by-partlabel/AAA", 0, 7⟩ (by decide),
   contentbuf_size_bound.2 (fun _ r => r) 5 8 10 (by decide)
      (fun _ _ => Nat.le_refl _) 8 (by decide)⟩
